import Mathlib

/-!
# go-echo-app: a shallow embedding of the user service

The development follows the two packages of the repository.

* `data` (data.go): the `User` record, the `IRepository` interface and the
  `Repository` that implements it over a `database/sql` handle.  The handle,
  the wall clock and the bcrypt library are external collaborators; they are
  taken as a record of arbitrary state-passing functions (`DB`, `Ambient`), so
  every theorem quantified over them holds for every behaviour of the store.
* `controllers` (handlers.go): the five handlers, written against
  `IRepository`.  Every call a handler makes on the repository is recorded, in
  order, in the `calls` field of its result.

Go values are embedded as follows.  A Go `error` is `Option GoError` (`none` is
`nil`); a `*User` is `Option User`; a `[]*User` is `Option (List User)` where
`none` is the nil slice; a pair `(x, err)` returned by a Go function is a Lean
pair, so the combinations a Go function can return are all representable.
`time.Time` is an integer instant.
-/

/-- An instant of `time.Time`. -/
abbrev Time := Int

/-! ## Errors -/

/-- Go `error` values met by the program: the two `database/sql` sentinels the
tests use, any other error (identified by its message), and an error that
wraps another one (`fmt.Errorf` with `%w`). -/
inductive GoError where
  | ErrNoRows
  | ErrConnDone
  | other (msg : String)
  | wrap (msg : String) (inner : GoError)
  deriving DecidableEq, Repr

namespace errors

/-- The unwrap loop of `errors.Is` on a non-nil error. -/
def chainHas : GoError → GoError → Bool
  | .wrap msg inner, target =>
      decide (GoError.wrap msg inner = target) || chainHas inner target
  | e, target => decide (e = target)

/-- Go `errors.Is(err, target)`: false on a nil error, otherwise true when some
error of the unwrap chain of `err` equals `target`. -/
def Is (err : Option GoError) (target : GoError) : Bool :=
  match err with
  | none => false
  | some e => chainHas e target

end errors

/-! ## JSON documents -/

namespace json

/-- A scalar JSON value as produced by `encoding/json` for the field types of
`User` and of the error body. -/
inductive Value where
  | string (s : String)
  | number (n : Int)
  | time (t : Time)
  deriving DecidableEq, Repr

/-- A JSON object: its members in encoding order. -/
abbrev Object := List (String × Value)

/-- A JSON document written by a handler. -/
inductive Document where
  | null
  | object (o : Object)
  | array (xs : List Object)
  deriving DecidableEq, Repr

/-- Hexadecimal digit of a number below sixteen. -/
def hexDigit (n : Nat) : Char :=
  if n < 10 then Char.ofNat (48 + n) else Char.ofNat (87 + n)

/-- The escape `encoding/json` writes for one character of a string. -/
def escapeChar (c : Char) : List Char :=
  if c = '"' then ['\\', '"']
  else if c = '\\' then ['\\', '\\']
  else if c = '\n' then ['\\', 'n']
  else if c = '\r' then ['\\', 'r']
  else if c = '\t' then ['\\', 't']
  else if c.toNat < 32 ∨ c = '<' ∨ c = '>' ∨ c = '&' then
    ['\\', 'u', '0', '0', hexDigit (c.toNat / 16), hexDigit (c.toNat % 16)]
  else if c.toNat = 8232 then ['\\', 'u', '2', '0', '2', '8']
  else if c.toNat = 8233 then ['\\', 'u', '2', '0', '2', '9']
  else [c]

/-- A JSON string literal. -/
def quote (s : String) : String :=
  String.mk (['"'] ++ (s.data.map escapeChar).flatten ++ ['"'])

/-- Text of a scalar; `layout` is the text `time.Time` marshals to. -/
def encodeValue (layout : Time → String) : Value → String
  | .string s => quote s
  | .number n => toString n
  | .time t => quote (layout t)

/-- Text of one member. -/
def encodeMember (layout : Time → String) (m : String × Value) : String :=
  quote m.1 ++ ":" ++ encodeValue layout m.2

/-- Text of an object. -/
def encodeObject (layout : Time → String) (o : Object) : String :=
  "\x7b" ++ ",".intercalate (o.map (encodeMember layout)) ++ "\x7d"

/-- Text of a document, as `json.Marshal` writes it. -/
def Marshal (layout : Time → String) : Document → String
  | .null => "null"
  | .object o => encodeObject layout o
  | .array xs => "[" ++ ",".intercalate (xs.map (encodeObject layout)) ++ "]"

/-- The keys of every object of a document. -/
def Document.keys : Document → List String
  | .null => []
  | .object o => o.map Prod.fst
  | .array xs => (xs.map (fun o => o.map Prod.fst)).flatten

end json

/-! ## Package data -/

namespace data

/-- The `User` struct of data.go. -/
structure User where
  ID : String
  Email : String
  FirstName : String
  LastName : String
  Password : String
  Active : Int
  CreatedAt : Time
  UpdatedAt : Time
  deriving DecidableEq, Repr

/-- The zero value of `User` (`var u data.User`). -/
def User.zero : User := ⟨"", "", "", "", "", 0, 0, 0⟩

/-- JSON encoding of a `User` following its struct tags: `first_name`,
`last_name` and `password` carry `omitempty` and are left out when empty. -/
def User.toJSON (u : User) : json.Object :=
  [("user_id", .string u.ID), ("email", .string u.Email)]
    ++ (if u.FirstName = "" then [] else [("first_name", .string u.FirstName)])
    ++ (if u.LastName = "" then [] else [("last_name", .string u.LastName)])
    ++ (if u.Password = "" then [] else [("password", .string u.Password)])
    ++ [("active", .number u.Active), ("created_at", .time u.CreatedAt),
        ("updated_at", .time u.UpdatedAt)]

/-- The `IRepository` interface.  Each method takes the world before the call
and returns its Go results together with the world after it. -/
structure IRepository (σ : Type) where
  GetAll : σ → (Option (List User) × Option GoError) × σ
  GetOne : String → σ → (Option User × Option GoError) × σ
  GetByEmail : String → σ → (Option User × Option GoError) × σ
  Update : User → σ → Option GoError × σ
  DeleteByID : String → σ → Option GoError × σ
  Insert : User → σ → (String × Option GoError) × σ

/-! ### The store handle -/

/-- A value bound to a placeholder or read from a column. -/
inductive Arg where
  | text (s : String)
  | int (n : Int)
  | bytes (b : String)
  | time (t : Time)
  deriving DecidableEq, Repr

/-- A statement as assembled by the squirrel builder: the clauses with their
bound arguments.  A `where` clause is a conjunction of column equalities
(`sq.Eq`). -/
inductive Stmt where
  | select (columns : String) (table : String) (cond : List (String × Arg))
      (orderBy : List String)
  | update (table : String) (set : List (String × Arg)) (cond : List (String × Arg))
  | delete (table : String) (cond : List (String × Arg))
  | insert (table : String) (columns : List String) (values : List Arg)
      (suffix : String)
  deriving DecidableEq, Repr

/-- One result row: its column values in select order. -/
abbrev Row := List Arg

/-- The value of `*sql.Rows`: the rows `Next` steps through, and the error
`rows.Err()` would report after the last of them. -/
structure Rows where
  rows : List Row
  err : Option GoError
  deriving DecidableEq, Repr

/-- The value of `sql.Result`. -/
structure Result where
  lastInsertId : Int
  rowsAffected : Nat
  deriving DecidableEq, Repr

/-- The `*sql.DB` handle.  `QueryRowContext` is given with the outcome its
`Row` hands to `Scan`: the single row, or the error (`sql.ErrNoRows` when the
query matched nothing, otherwise the error of the query). -/
structure DB (σ : Type) where
  QueryContext : Stmt → σ → Except GoError Rows × σ
  QueryRowContext : Stmt → σ → Except GoError Row × σ
  ExecContext : Stmt → σ → Except GoError Result × σ

/-- The ambient libraries `Repository` calls besides the handle: `time.Now`
and `bcrypt.GenerateFromPassword`. -/
structure Ambient (σ : Type) where
  Now : σ → Time × σ
  GenerateFromPassword : String → Nat → σ → Except GoError String × σ

/-- The `Repository` struct, with the libraries it reaches. -/
structure Repository (σ : Type) where
  db : DB σ
  lib : Ambient σ

/-- The error `Scan` reports when a row does not fit the destinations. -/
def scanError : GoError := .other "sql: Scan error"

/-- The `rows.Scan` call of `GetAll`: seven destinations, without password. -/
def scanListed : Row → Except GoError User
  | [.text id, .text email, .text first, .text last, .int active, .time created,
      .time updated] =>
      .ok ⟨id, email, first, last, "", active, created, updated⟩
  | _ => .error scanError

/-- The `row.Scan` call of `GetOne` and `GetByEmail`: eight destinations. -/
def scanStored : Row → Except GoError User
  | [.text id, .text email, .text first, .text last, .text password, .int active,
      .time created, .time updated] =>
      .ok ⟨id, email, first, last, password, active, created, updated⟩
  | _ => .error scanError

/-- The `uq.Scan(&newID)` call of `Insert`: on failure `newID` keeps its zero
value. -/
def scanID : Row → String × Option GoError
  | [.text id] => (id, none)
  | _ => ("", some scanError)

/-- The loop `for rows.Next() { ... }` of `GetAll`, with `users` the slice
built so far: a failing `Scan` returns `nil, err`. -/
def scanAll : List Row → Option (List User) → Option (List User) × Option GoError
  | [], users => (users, none)
  | row :: rest, users =>
      match scanListed row with
      | .error e => (none, some e)
      | .ok user => scanAll rest (some (users.getD [] ++ [user]))

/-- The select statement of `GetAll`. -/
def selectAll : Stmt :=
  .select "user_id, email, first_name, last_name, user_active, created_at, updated_at"
    "users" [] ["last_name ASC"]

/-- The select statement of `GetOne`. -/
def selectByID (id : String) : Stmt :=
  .select "user_id, email, first_name, last_name, password, user_active, created_at, updated_at"
    "users" [("user_id", .text id)] []

/-- The select statement of `GetByEmail`. -/
def selectByEmail (email : String) : Stmt :=
  .select "user_id, email, first_name, last_name, password, user_active, created_at, updated_at"
    "users" [("email", .text email)] []

/-- The update statement of `Update`; `SetMap` emits its keys in sorted
order. -/
def updateStmt (u : User) (now : Time) : Stmt :=
  .update "users"
    [("email", .text u.Email), ("first_name", .text u.FirstName),
     ("last_name", .text u.LastName), ("updated_at", .time now),
     ("user_active", .int u.Active)]
    [("user_id", .text u.ID)]

/-- The delete statement of `DeleteByID`. -/
def deleteStmt (id : String) : Stmt :=
  .delete "users" [("user_id", .text id)]

/-- The insert statement of `Insert`. -/
def insertStmt (u : User) (hashedPassword : String) (created updated : Time) : Stmt :=
  .insert "users"
    ["email", "first_name", "last_name", "password", "user_active", "created_at",
     "updated_at"]
    [.text u.Email, .text u.FirstName, .text u.LastName, .bytes hashedPassword,
     .int u.Active, .time created, .time updated]
    "RETURNING user_id"

namespace Repository

variable {σ : Type}

/-- `GetAll` of data.go. -/
def GetAll (r : Repository σ) (w : σ) : (Option (List User) × Option GoError) × σ :=
  let q := r.db.QueryContext selectAll w
  match q.1 with
  | .error err => ((none, some err), q.2)
  | .ok rows => (scanAll rows.rows none, q.2)

/-- `GetOne` of data.go. -/
def GetOne (r : Repository σ) (id : String) (w : σ) :
    (Option User × Option GoError) × σ :=
  let q := r.db.QueryRowContext (selectByID id) w
  match q.1.bind scanStored with
  | .error err => ((none, some err), q.2)
  | .ok user => ((some user, none), q.2)

/-- `GetByEmail` of data.go. -/
def GetByEmail (r : Repository σ) (email : String) (w : σ) :
    (Option User × Option GoError) × σ :=
  let q := r.db.QueryRowContext (selectByEmail email) w
  match q.1.bind scanStored with
  | .error err => ((none, some err), q.2)
  | .ok user => ((some user, none), q.2)

/-- `Update` of data.go: the error of `ExecContext`, whatever the result. -/
def Update (r : Repository σ) (u : User) (w : σ) : Option GoError × σ :=
  let t := r.lib.Now w
  let x := r.db.ExecContext (updateStmt u t.1) t.2
  match x.1 with
  | .error err => (some err, x.2)
  | .ok _ => (none, x.2)

/-- `DeleteByID` of data.go: the error of `ExecContext`, whatever the result. -/
def DeleteByID (r : Repository σ) (id : String) (w : σ) : Option GoError × σ :=
  let x := r.db.ExecContext (deleteStmt id) w
  match x.1 with
  | .error err => (some err, x.2)
  | .ok _ => (none, x.2)

/-- `Insert` of data.go. -/
def Insert (r : Repository σ) (u : User) (w : σ) : (String × Option GoError) × σ :=
  let h := r.lib.GenerateFromPassword u.Password 12 w
  match h.1 with
  | .error err => (("", some err), h.2)
  | .ok hashedPassword =>
      let t1 := r.lib.Now h.2
      let t2 := r.lib.Now t1.2
      let q := r.db.QueryRowContext (insertStmt u hashedPassword t1.1 t2.1) t2.2
      match q.1 with
      | .error err => (("", some err), q.2)
      | .ok row => (scanID row, q.2)

end Repository

/-- `NewRepository` of data.go: the repository behind the interface. -/
def NewRepository {σ : Type} (r : Repository σ) : IRepository σ where
  GetAll := r.GetAll
  GetOne := r.GetOne
  GetByEmail := r.GetByEmail
  Update := r.Update
  DeleteByID := r.DeleteByID
  Insert := r.Insert

end data

/-! ## Package controllers -/

namespace controllers

open data

/-- Modelled from the spec: the `errorResponse` struct, whose declaration is
not among the sources.  The interface table and the tests give its encoding:
a single member `error` holding the message. -/
structure errorResponse where
  Error : String
  deriving DecidableEq, Repr

/-- JSON encoding of an `errorResponse`. -/
def errorResponse.toJSON (e : errorResponse) : json.Document :=
  .object [("error", .string e.Error)]

/-- What a handler leaves on the wire: a status code with a JSON document
(`c.JSON`), a status code with an empty body (`c.NoContent`), or a run-time
panic of the handler (a nil pointer dereference). -/
inductive Response where
  | JSON (code : Nat) (body : json.Document)
  | NoContent (code : Nat)
  | panic
  deriving DecidableEq, Repr

/-- The status code of a response, when the handler wrote one. -/
def Response.status : Response → Option Nat
  | .JSON code _ => some code
  | .NoContent code => some code
  | .panic => none

/-- The document of a response, when the handler wrote one. -/
def Response.document : Response → Option json.Document
  | .JSON _ body => some body
  | _ => none

/-- Whether a response carries a `password` member in some object of its
document. -/
def Response.exposesPassword (r : Response) : Bool :=
  match r.document with
  | none => false
  | some doc => doc.keys.contains "password"

/-- The `net/http` status constants the handlers use. -/
def StatusOK : Nat := 200
/-- Status `201 Created`. -/
def StatusCreated : Nat := 201
/-- Status `202 Accepted`. -/
def StatusAccepted : Nat := 202
/-- Status `400 Bad Request`. -/
def StatusBadRequest : Nat := 400

/-- The part of `echo.Context` the handlers read: the path parameters and the
outcome of `c.Bind` on a zero `User` (the decoded user, or the bind error). -/
structure Context where
  Param : String → String
  Bind : Except GoError User

/-- A call on the repository interface. -/
inductive Call where
  | GetAll
  | GetOne (id : String)
  | GetByEmail (email : String)
  | Update (u : User)
  | DeleteByID (id : String)
  | Insert (u : User)
  deriving DecidableEq, Repr

/-- Whether the call writes to the store. -/
def Call.mutates : Call → Bool
  | .Update _ => true
  | .DeleteByID _ => true
  | .Insert _ => true
  | _ => false

/-- The `Config` struct of routes.go. -/
structure Config (σ : Type) where
  Repo : IRepository σ

/-- The run of a handler: the response, the repository calls made, in order,
and the world after the last of them. -/
structure Run (σ : Type) where
  response : Response
  calls : List Call
  world : σ

/-- JSON encoding of the slice `GetAll` returns: `null` for the nil slice. -/
def usersJSON : Option (List User) → json.Document
  | none => .null
  | some users => .array (users.map User.toJSON)

namespace Config

variable {σ : Type}

/-- `getAllUsers` of handlers.go. -/
def getAllUsers (app : Config σ) (_c : Context) (w : σ) : Run σ :=
  let r := app.Repo.GetAll w
  match r.1.2 with
  | some _ =>
      ⟨.JSON StatusBadRequest (errorResponse.toJSON ⟨"bad request"⟩), [.GetAll], r.2⟩
  | none => ⟨.JSON StatusOK (usersJSON r.1.1), [.GetAll], r.2⟩

/-- `getUser` of handlers.go.  `user.Password = ""` dereferences `user`. -/
def getUser (app : Config σ) (c : Context) (w : σ) : Run σ :=
  let id := c.Param "id"
  let r := app.Repo.GetOne id w
  match r.1.2 with
  | some _ =>
      ⟨.JSON StatusBadRequest (errorResponse.toJSON ⟨"bad request"⟩), [.GetOne id], r.2⟩
  | none =>
      match r.1.1 with
      | none => ⟨.panic, [.GetOne id], r.2⟩
      | some user =>
          ⟨.JSON StatusOK (.object { user with Password := "" }.toJSON), [.GetOne id], r.2⟩

/-- `saveUser` of handlers.go. -/
def saveUser (app : Config σ) (c : Context) (w : σ) : Run σ :=
  match c.Bind with
  | .error _ => ⟨.JSON StatusBadRequest (errorResponse.toJSON ⟨"bad request"⟩), [], w⟩
  | .ok u =>
      let r := app.Repo.GetByEmail u.Email w
      let eu := r.1.1
      let err := if errors.Is r.1.2 .ErrNoRows then none else r.1.2
      match err with
      | some _ =>
          ⟨.JSON StatusBadRequest (errorResponse.toJSON ⟨"processing error"⟩),
            [.GetByEmail u.Email], r.2⟩
      | none =>
          match eu with
          | some _ =>
              ⟨.JSON StatusBadRequest (errorResponse.toJSON ⟨"user exists"⟩),
                [.GetByEmail u.Email], r.2⟩
          | none =>
              let i := app.Repo.Insert u r.2
              match i.1.2 with
              | some _ =>
                  ⟨.JSON StatusBadRequest (errorResponse.toJSON ⟨"submission failed"⟩),
                    [.GetByEmail u.Email, .Insert u], i.2⟩
              | none =>
                  ⟨.JSON StatusCreated
                      (.object { u with ID := i.1.1, Password := "" }.toJSON),
                    [.GetByEmail u.Email, .Insert u], i.2⟩

/-- `updateUser` of handlers.go.  `user.Email = r.Email` dereferences `user`. -/
def updateUser (app : Config σ) (c : Context) (w : σ) : Run σ :=
  let id := c.Param "id"
  match c.Bind with
  | .error _ => ⟨.JSON StatusBadRequest (errorResponse.toJSON ⟨"bad request"⟩), [], w⟩
  | .ok r =>
      let g := app.Repo.GetOne id w
      match g.1.2 with
      | some _ =>
          ⟨.JSON StatusBadRequest (errorResponse.toJSON ⟨"bad request"⟩), [.GetOne id], g.2⟩
      | none =>
          match g.1.1 with
          | none => ⟨.panic, [.GetOne id], g.2⟩
          | some user =>
              let user := { user with
                Email := r.Email, FirstName := r.FirstName, LastName := r.LastName,
                Active := r.Active }
              let x := app.Repo.Update user g.2
              match x.1 with
              | some _ =>
                  ⟨.JSON StatusBadRequest (errorResponse.toJSON ⟨"update failed"⟩),
                    [.GetOne id, .Update user], x.2⟩
              | none => ⟨.NoContent StatusAccepted, [.GetOne id, .Update user], x.2⟩

/-- `deleteUser` of handlers.go. -/
def deleteUser (app : Config σ) (c : Context) (w : σ) : Run σ :=
  let id := c.Param "id"
  let x := app.Repo.DeleteByID id w
  match x.1 with
  | some _ =>
      ⟨.JSON StatusBadRequest (errorResponse.toJSON ⟨"bad request"⟩), [.DeleteByID id], x.2⟩
  | none => ⟨.NoContent StatusAccepted, [.DeleteByID id], x.2⟩

end Config

end controllers

/-! ## A store in memory

A concrete world for evaluating the program: the `users` table as a list of
rows, a clock that advances by one at every reading, and a counter for fresh
identifiers.  It plays the part the SQL mock plays in the tests, with the row
semantics of a relational store: a statement that matches no row executes
without error and affects zero rows. -/

namespace mem

open data

/-- The world of the memory store. -/
structure Store where
  users : List User
  clock : Time
  next : Nat
  deriving DecidableEq, Repr

/-- The value of a column of a row of `users`. -/
def column (name : String) (u : User) : Option Arg :=
  if name = "user_id" then some (.text u.ID)
  else if name = "email" then some (.text u.Email)
  else if name = "first_name" then some (.text u.FirstName)
  else if name = "last_name" then some (.text u.LastName)
  else if name = "password" then some (.text u.Password)
  else if name = "user_active" then some (.int u.Active)
  else if name = "created_at" then some (.time u.CreatedAt)
  else if name = "updated_at" then some (.time u.UpdatedAt)
  else none

/-- Whether a row satisfies every equality of a `where` clause. -/
def satisfies (cond : List (String × Arg)) (u : User) : Bool :=
  cond.all (fun c => decide (column c.1 u = some c.2))

/-- One assignment of a `set` clause. -/
def assign (u : User) (a : String × Arg) : User :=
  match a with
  | ("email", .text s) => { u with Email := s }
  | ("first_name", .text s) => { u with FirstName := s }
  | ("last_name", .text s) => { u with LastName := s }
  | ("password", .text s) => { u with Password := s }
  | ("password", .bytes s) => { u with Password := s }
  | ("user_active", .int n) => { u with Active := n }
  | ("created_at", .time t) => { u with CreatedAt := t }
  | ("updated_at", .time t) => { u with UpdatedAt := t }
  | _ => u

/-- The row a select returns for a stored user: with the password column when
the column list names it. -/
def project (columns : String) (u : User) : Row :=
  if columns =
      "user_id, email, first_name, last_name, password, user_active, created_at, updated_at"
  then [.text u.ID, .text u.Email, .text u.FirstName, .text u.LastName, .text u.Password,
        .int u.Active, .time u.CreatedAt, .time u.UpdatedAt]
  else [.text u.ID, .text u.Email, .text u.FirstName, .text u.LastName,
        .int u.Active, .time u.CreatedAt, .time u.UpdatedAt]

/-- Insertion of a row into a list ordered by last name; names compare by
their characters, which is the order `<` of strings. -/
def insertByLastName (u : User) : List User → List User
  | [] => [u]
  | v :: rest =>
      if u.LastName.data < v.LastName.data then u :: v :: rest
      else v :: insertByLastName u rest

/-- The rows ordered by last name, ascending. -/
def orderByLastName (us : List User) : List User :=
  us.foldr insertByLastName []

/-- The rows a select yields. -/
def selected (s : Store) (cond : List (String × Arg)) (orderBy : List String) :
    List User :=
  let hits := s.users.filter (satisfies cond)
  if orderBy = ["last_name ASC"] then orderByLastName hits else hits

/-- The identifier the store assigns to its next row. -/
def freshID (n : Nat) : String := "user-" ++ toString n

/-- The error of a statement the store does not run in the given mode. -/
def unsupported : GoError := .other "unsupported statement"

/-- The handle of the memory store. -/
def db : DB Store where
  QueryContext := fun stmt s =>
    match stmt with
    | .select columns "users" cond orderBy =>
        (.ok ⟨(selected s cond orderBy).map (project columns), none⟩, s)
    | _ => (.error unsupported, s)
  QueryRowContext := fun stmt s =>
    match stmt with
    | .select columns "users" cond orderBy =>
        match selected s cond orderBy with
        | [] => (.error .ErrNoRows, s)
        | u :: _ => (.ok (project columns u), s)
    | .insert "users" columns values "RETURNING user_id" =>
        if columns.length = values.length then
          let fresh : User := { User.zero with ID := freshID s.next }
          let row := (columns.zip values).foldl assign fresh
          (.ok [.text row.ID], { s with users := s.users ++ [row], next := s.next + 1 })
        else (.error unsupported, s)
    | _ => (.error unsupported, s)
  ExecContext := fun stmt s =>
    match stmt with
    | .update "users" assigns cond =>
        let written :=
          s.users.map (fun u => if satisfies cond u then assigns.foldl assign u else u)
        (.ok ⟨0, (s.users.filter (satisfies cond)).length⟩, { s with users := written })
    | .delete "users" cond =>
        let kept := s.users.filter (fun u => !satisfies cond u)
        (.ok ⟨0, (s.users.filter (satisfies cond)).length⟩, { s with users := kept })
    | _ => (.error unsupported, s)

/-- The clock and the password hash of the memory store.  The hash stands in
for bcrypt: it refuses a password longer than 72 bytes, as bcrypt does, and
never returns its input. -/
def lib : Ambient Store where
  Now := fun s => (s.clock, { s with clock := s.clock + 1 })
  GenerateFromPassword := fun password cost s =>
    if password.utf8ByteSize > 72 then
      (.error (.other "bcrypt: password length exceeds 72 bytes"), s)
    else (.ok ("$2a$" ++ toString cost ++ "$" ++ String.mk password.data.reverse), s)

/-- The repository over the memory store. -/
def repository : Repository Store := ⟨db, lib⟩

/-- The application wired as in main.go, over the memory store. -/
def app : controllers.Config Store := ⟨NewRepository repository⟩

/-- The empty store. -/
def empty : Store := ⟨[], 1000, 1⟩

/-- A request context: the path identifier and the outcome of `Bind`. -/
def context (id : String) (body : Except GoError User) : controllers.Context :=
  ⟨fun name => if name = "id" then id else "", body⟩

/-- A password of 73 bytes, one more than bcrypt accepts. -/
def longPassword : String := String.mk (List.replicate 73 'x')

/-- The user of the request bodies of the tests. -/
def clark : User := ⟨"", "example@gmail.com", "Clark", "Kent", "password", 1, 0, 0⟩

/-- The error `Bind` reports on an empty body. -/
def emptyBody : GoError := .other "Request body can't be empty"

/-- A handle whose connection is closed: every call fails with
`sql.ErrConnDone`, as the tests script with `WillReturnError`. -/
def closed : DB Store where
  QueryContext := fun _ s => (.error .ErrConnDone, s)
  QueryRowContext := fun _ s => (.error .ErrConnDone, s)
  ExecContext := fun _ s => (.error .ErrConnDone, s)

/-- A handle that reads like `db` and fails every write with
`sql.ErrConnDone`. -/
def readOnly : DB Store where
  QueryContext := db.QueryContext
  QueryRowContext := fun stmt s =>
    match stmt with
    | .select _ _ _ _ => db.QueryRowContext stmt s
    | _ => (.error .ErrConnDone, s)
  ExecContext := fun _ s => (.error .ErrConnDone, s)

/-- The application over the closed handle. -/
def closedApp : controllers.Config Store := ⟨NewRepository ⟨closed, lib⟩⟩

/-- The application over the read-only handle. -/
def readOnlyApp : controllers.Config Store := ⟨NewRepository ⟨readOnly, lib⟩⟩

/-- The store after `clark` was created in the empty store. -/
def seeded : Store :=
  ⟨[⟨"user-1", "example@gmail.com", "Clark", "Kent", "$2a$12$drowssap", 1, 1000, 1001⟩],
    1002, 2⟩

end mem

/-! ## Instruments

Definitions used to state what a run did: the statements a repository handed
to its handle, and the two repository steps of a create request taken one at
a time. -/

namespace data

variable {σ : Type}

/-- The handle `db` keeping, next to its world, the statements it was handed,
oldest first. -/
def DB.recording (db : DB σ) : DB (σ × List Stmt) where
  QueryContext := fun stmt s =>
    ((db.QueryContext stmt s.1).1, ((db.QueryContext stmt s.1).2, s.2 ++ [stmt]))
  QueryRowContext := fun stmt s =>
    ((db.QueryRowContext stmt s.1).1, ((db.QueryRowContext stmt s.1).2, s.2 ++ [stmt]))
  ExecContext := fun stmt s =>
    ((db.ExecContext stmt s.1).1, ((db.ExecContext stmt s.1).2, s.2 ++ [stmt]))

/-- The libraries `lib` over the world of a recording handle. -/
def Ambient.recording (lib : Ambient σ) : Ambient (σ × List Stmt) where
  Now := fun s => ((lib.Now s.1).1, ((lib.Now s.1).2, s.2))
  GenerateFromPassword := fun password cost s =>
    ((lib.GenerateFromPassword password cost s.1).1,
      ((lib.GenerateFromPassword password cost s.1).2, s.2))

/-- The repository `r` over a recording handle. -/
def Repository.recording (r : Repository σ) : Repository (σ × List Stmt) :=
  ⟨r.db.recording, r.lib.recording⟩

/-- The columns a `set` clause assigns. -/
def assigned : Stmt → List String
  | .update _ assigns _ => assigns.map Prod.fst
  | _ => []

end data

namespace controllers

open data

variable {σ : Type}

/-- The outcome of `c.Bind(&r)` on the body `{}`: the decoder meets no member
and leaves every field of the zero-valued `r` as it is. -/
def bindEmptyObject : Except GoError User := .ok User.zero

/-- Where a `saveUser` request stands between its repository calls: not yet
started, past the email check with `Insert` still to come, or answered. -/
inductive Pending where
  | arrived (c : Context)
  | checked (u : User)
  | answered (r : Response)

/-- One repository call of `saveUser` with the code around it: from `arrived`,
the bind, the `GetByEmail` call and the two checks on its result; from
`checked`, the `Insert` call and the response. -/
def Config.saveUserStep (app : Config σ) : Pending → σ → Pending × σ
  | .arrived c, w =>
      match c.Bind with
      | .error _ =>
          (.answered (.JSON StatusBadRequest (errorResponse.toJSON ⟨"bad request"⟩)), w)
      | .ok u =>
          let r := app.Repo.GetByEmail u.Email w
          let eu := r.1.1
          let err := if errors.Is r.1.2 .ErrNoRows then none else r.1.2
          match err with
          | some _ =>
              (.answered
                (.JSON StatusBadRequest (errorResponse.toJSON ⟨"processing error"⟩)), r.2)
          | none =>
              match eu with
              | some _ =>
                  (.answered
                    (.JSON StatusBadRequest (errorResponse.toJSON ⟨"user exists"⟩)), r.2)
              | none => (.checked u, r.2)
  | .checked u, w =>
      let i := app.Repo.Insert u w
      match i.1.2 with
      | some _ =>
          (.answered
            (.JSON StatusBadRequest (errorResponse.toJSON ⟨"submission failed"⟩)), i.2)
      | none =>
          (.answered
            (.JSON StatusCreated (.object { u with ID := i.1.1, Password := "" }.toJSON)),
            i.2)
  | .answered r, w => (.answered r, w)

/-- Two `saveUser` requests over one store, advanced one step at a time in the
order of the schedule: `true` steps the first request, `false` the second. -/
def Config.interleave (app : Config σ) :
    List Bool → Pending × Pending → σ → (Pending × Pending) × σ
  | [], p, w => (p, w)
  | true :: rest, p, w =>
      app.interleave rest ((app.saveUserStep p.1 w).1, p.2) (app.saveUserStep p.1 w).2
  | false :: rest, p, w =>
      app.interleave rest (p.1, (app.saveUserStep p.2 w).1) (app.saveUserStep p.2 w).2

/-- The response of a request that was answered. -/
def Pending.response : Pending → Option Response
  | .answered r => some r
  | _ => none

/-- The user a request holds between its email check and its `Insert`. -/
def Pending.inserting : Pending → Option User
  | .checked u => some u
  | _ => none

/-- Whether no read follows a write in a list of calls. -/
def readsFirst : List Call → Bool
  | [] => true
  | call :: rest => (!call.mutates || rest.all Call.mutates) && readsFirst rest

/-- The call discipline of a handler: at most one write, at most two calls,
and no read after a write. -/
def disciplined (calls : List Call) : Bool :=
  decide ((calls.filter Call.mutates).length ≤ 1) && decide (calls.length ≤ 2)
    && readsFirst calls

end controllers

namespace mem

open data

/-- A handle over a `users` table whose `user_id` has no generated default: it
behaves like `db`, and a row inserted without an identifier keeps the empty
one. -/
def unkeyed : DB Store where
  QueryContext := db.QueryContext
  QueryRowContext := fun stmt s =>
    match stmt with
    | .insert "users" columns values "RETURNING user_id" =>
        if columns.length = values.length then
          let row := (columns.zip values).foldl assign User.zero
          (.ok [.text row.ID], { s with users := s.users ++ [row] })
        else (.error unsupported, s)
    | _ => db.QueryRowContext stmt s
  ExecContext := db.ExecContext

/-- A handle that answers every query with one row of a single integer
column, which fits none of the scans, and otherwise behaves like `db`. -/
def garbled : DB Store where
  QueryContext := fun _ s => (.ok ⟨[[.int 7]], none⟩, s)
  QueryRowContext := fun _ s => (.ok [.int 7], s)
  ExecContext := db.ExecContext

/-- The application over the unkeyed handle. -/
def unkeyedApp : controllers.Config Store := ⟨NewRepository ⟨unkeyed, lib⟩⟩

/-- A second user, for listings. -/
def aaronson : User := ⟨"", "hank@mail.com", "Hank", "Aaronson", "password", 1, 0, 0⟩

/-- A store holding `Kent` and then `Aaronson`, in insertion order. -/
def listed : Store :=
  ⟨[⟨"user-1", "example@gmail.com", "Clark", "Kent", "$2a$12$drowssap", 1, 1000, 1001⟩,
    ⟨"user-2", "hank@mail.com", "Hank", "Aaronson", "$2a$12$drowssap", 1, 1002, 1003⟩],
    1004, 3⟩

end mem

/-! ## Theorems -/

namespace controllers

open data

variable {σ : Type}

/-- C1: when the body decodes to `u` and `GetByEmail u.Email` returns an
existing user with a nil error, `saveUser` answers 400 with the body
`{"error":"user exists"}`, and its only repository call is that lookup:
`Insert` is not called and the world is the one the lookup left. -/
theorem saveUser_user_exists (app : Config σ) (c : Context) (w : σ) (u eu : User)
    (hbind : c.Bind = .ok u)
    (hlookup : (app.Repo.GetByEmail u.Email w).1 = (some eu, none)) :
    (app.saveUser c w).response
        = .JSON 400 (.object [("error", .string "user exists")])
      ∧ (∀ layout, ((app.saveUser c w).response.document.map (json.Marshal layout))
          = some "\x7b\"error\":\"user exists\"\x7d")
      ∧ (app.saveUser c w).calls = [.GetByEmail u.Email]
      ∧ (∀ v, Call.Insert v ∉ (app.saveUser c w).calls)
      ∧ (app.saveUser c w).world = (app.Repo.GetByEmail u.Email w).2 := by
  have hrun : app.saveUser c w
      = ⟨.JSON 400 (.object [("error", .string "user exists")]), [.GetByEmail u.Email],
          (app.Repo.GetByEmail u.Email w).2⟩ := by
    simp [Config.saveUser, hbind, hlookup, errors.Is, StatusBadRequest, errorResponse.toJSON]
  rw [hrun]
  refine ⟨rfl, ?_, rfl, ?_, rfl⟩
  · intro layout
    rfl
  · intro v hv
    simp at hv

/-- Witness of C1: creating `clark` again in the store that already holds
that email. -/
theorem saveUser_user_exists_witness :
    (mem.app.saveUser (mem.context "" (.ok mem.clark)) mem.seeded).response
        = .JSON 400 (.object [("error", .string "user exists")])
      ∧ (∀ layout, ((mem.app.saveUser (mem.context "" (.ok mem.clark))
            mem.seeded).response.document.map (json.Marshal layout))
          = some "\x7b\"error\":\"user exists\"\x7d")
      ∧ (mem.app.saveUser (mem.context "" (.ok mem.clark)) mem.seeded).calls
          = [.GetByEmail mem.clark.Email]
      ∧ (∀ v, Call.Insert v ∉
          (mem.app.saveUser (mem.context "" (.ok mem.clark)) mem.seeded).calls)
      ∧ (mem.app.saveUser (mem.context "" (.ok mem.clark)) mem.seeded).world
          = (mem.app.Repo.GetByEmail mem.clark.Email mem.seeded).2 :=
  saveUser_user_exists mem.app (mem.context "" (.ok mem.clark)) mem.seeded mem.clark
    ⟨"user-1", "example@gmail.com", "Clark", "Kent", "$2a$12$drowssap", 1, 1000, 1001⟩
    rfl rfl

/-- The encoding of a user with a blank password has no `password` member, and
its other members are the fields of the user. -/
theorem toJSON_blank_password (u : User) (h : u.Password = "") :
    "password" ∉ u.toJSON.map Prod.fst
      ∧ u.toJSON.lookup "user_id" = some (.string u.ID)
      ∧ u.toJSON.lookup "email" = some (.string u.Email)
      ∧ u.toJSON.lookup "first_name"
          = (if u.FirstName = "" then none else some (.string u.FirstName))
      ∧ u.toJSON.lookup "last_name"
          = (if u.LastName = "" then none else some (.string u.LastName))
      ∧ u.toJSON.lookup "active" = some (.number u.Active) := by
  refine ⟨?_, ?_, ?_, ?_, ?_, ?_⟩ <;>
    by_cases hf : u.FirstName = "" <;> by_cases hl : u.LastName = "" <;>
      simp [User.toJSON, h, hf, hl, List.lookup]

/-- C2: when the body decodes to `u`, the email lookup returns no user and a
no-rows error, and `Insert` returns `id` with a nil error, `saveUser` answers
201 with the encoding of `u` carrying `id` as identifier and a blank password:
the JSON has no `password` member, `user_id` is `id`, and `email`,
`first_name`, `last_name` and `active` are those of the request. -/
theorem saveUser_created (app : Config σ) (c : Context) (w : σ) (u : User) (id : String)
    (hbind : c.Bind = .ok u)
    (hnone : (app.Repo.GetByEmail u.Email w).1.1 = none)
    (hnorows : errors.Is (app.Repo.GetByEmail u.Email w).1.2 .ErrNoRows = true)
    (hinsert : (app.Repo.Insert u (app.Repo.GetByEmail u.Email w).2).1 = (id, none)) :
    (app.saveUser c w).response
        = .JSON 201 (.object
            (User.toJSON ⟨id, u.Email, u.FirstName, u.LastName, "", u.Active, u.CreatedAt,
              u.UpdatedAt⟩))
      ∧ ∃ o, (app.saveUser c w).response.document = some (.object o)
          ∧ "password" ∉ o.map Prod.fst
          ∧ o.lookup "user_id" = some (.string id)
          ∧ o.lookup "email" = some (.string u.Email)
          ∧ o.lookup "first_name"
              = (if u.FirstName = "" then none else some (.string u.FirstName))
          ∧ o.lookup "last_name"
              = (if u.LastName = "" then none else some (.string u.LastName))
          ∧ o.lookup "active" = some (.number u.Active) := by
  have hrun : (app.saveUser c w).response
      = .JSON 201 (.object
          (User.toJSON ⟨id, u.Email, u.FirstName, u.LastName, "", u.Active, u.CreatedAt,
            u.UpdatedAt⟩)) := by
    simp [Config.saveUser, hbind, hnone, hnorows, hinsert, StatusCreated]
  rw [hrun]
  exact ⟨rfl, _, rfl,
    toJSON_blank_password
      ⟨id, u.Email, u.FirstName, u.LastName, "", u.Active, u.CreatedAt, u.UpdatedAt⟩ rfl⟩

/-- Witness of C2: creating `clark` in the empty store. -/
theorem saveUser_created_witness :
    (mem.app.saveUser (mem.context "" (.ok mem.clark)) mem.empty).response
        = .JSON 201 (.object
            (User.toJSON ⟨"user-1", "example@gmail.com", "Clark", "Kent", "", 1, 0, 0⟩))
      ∧ ∃ o, (mem.app.saveUser (mem.context "" (.ok mem.clark)) mem.empty).response.document
            = some (.object o)
          ∧ "password" ∉ o.map Prod.fst
          ∧ o.lookup "user_id" = some (.string "user-1")
          ∧ o.lookup "email" = some (.string mem.clark.Email)
          ∧ o.lookup "first_name"
              = (if mem.clark.FirstName = "" then none
                 else some (.string mem.clark.FirstName))
          ∧ o.lookup "last_name"
              = (if mem.clark.LastName = "" then none
                 else some (.string mem.clark.LastName))
          ∧ o.lookup "active" = some (.number mem.clark.Active) :=
  saveUser_created mem.app (mem.context "" (.ok mem.clark)) mem.empty mem.clark "user-1"
    rfl rfl rfl rfl

/-- C3: when the body fails to decode, `saveUser` and `updateUser` answer 400
(with the body `bad request`) without any repository call: the list of calls
is empty and the world is untouched. -/
theorem decode_failure_no_call (app : Config σ) (c : Context) (w : σ) (e : GoError)
    (hbind : c.Bind = .error e) :
    ((app.saveUser c w).response = .JSON 400 (.object [("error", .string "bad request")])
        ∧ (app.saveUser c w).calls = []
        ∧ (app.saveUser c w).world = w)
      ∧ ((app.updateUser c w).response
            = .JSON 400 (.object [("error", .string "bad request")])
        ∧ (app.updateUser c w).calls = []
        ∧ (app.updateUser c w).world = w) := by
  simp [Config.saveUser, Config.updateUser, hbind, StatusBadRequest, errorResponse.toJSON]

/-- Witness of C3: an empty body sent to the store that holds `clark`. -/
theorem decode_failure_no_call_witness :
    ((mem.app.saveUser (mem.context "user-1" (.error mem.emptyBody)) mem.seeded).response
          = .JSON 400 (.object [("error", .string "bad request")])
        ∧ (mem.app.saveUser (mem.context "user-1" (.error mem.emptyBody)) mem.seeded).calls
          = []
        ∧ (mem.app.saveUser (mem.context "user-1" (.error mem.emptyBody)) mem.seeded).world
          = mem.seeded)
      ∧ ((mem.app.updateUser (mem.context "user-1" (.error mem.emptyBody))
            mem.seeded).response
          = .JSON 400 (.object [("error", .string "bad request")])
        ∧ (mem.app.updateUser (mem.context "user-1" (.error mem.emptyBody)) mem.seeded).calls
          = []
        ∧ (mem.app.updateUser (mem.context "user-1" (.error mem.emptyBody)) mem.seeded).world
          = mem.seeded) :=
  decode_failure_no_call mem.app (mem.context "user-1" (.error mem.emptyBody)) mem.seeded
    mem.emptyBody rfl

/-- C4: when the body decodes and `GetOne` on the path identifier returns an
error, whichever it is, `updateUser` answers 400 and its only repository call
is that lookup: `Update` is not called. -/
theorem updateUser_lookup_failure (app : Config σ) (c : Context) (w : σ) (r : User)
    (e : GoError) (hbind : c.Bind = .ok r)
    (hlookup : (app.Repo.GetOne (c.Param "id") w).1.2 = some e) :
    (app.updateUser c w).response = .JSON 400 (.object [("error", .string "bad request")])
      ∧ (app.updateUser c w).calls = [.GetOne (c.Param "id")]
      ∧ (∀ v, Call.Update v ∉ (app.updateUser c w).calls)
      ∧ (app.updateUser c w).world = (app.Repo.GetOne (c.Param "id") w).2 := by
  have hrun : app.updateUser c w
      = ⟨.JSON 400 (.object [("error", .string "bad request")]), [.GetOne (c.Param "id")],
          (app.Repo.GetOne (c.Param "id") w).2⟩ := by
    simp [Config.updateUser, hbind, hlookup, StatusBadRequest, errorResponse.toJSON]
  rw [hrun]
  refine ⟨rfl, rfl, ?_, rfl⟩
  intro v hv
  simp at hv

/-- Witness of C4: updating an identifier the store does not hold. -/
theorem updateUser_lookup_failure_witness :
    (mem.app.updateUser (mem.context "user-9" (.ok mem.clark)) mem.seeded).response
        = .JSON 400 (.object [("error", .string "bad request")])
      ∧ (mem.app.updateUser (mem.context "user-9" (.ok mem.clark)) mem.seeded).calls
        = [.GetOne ((mem.context "user-9" (.ok mem.clark)).Param "id")]
      ∧ (∀ v, Call.Update v ∉
          (mem.app.updateUser (mem.context "user-9" (.ok mem.clark)) mem.seeded).calls)
      ∧ (mem.app.updateUser (mem.context "user-9" (.ok mem.clark)) mem.seeded).world
        = (mem.app.Repo.GetOne ((mem.context "user-9" (.ok mem.clark)).Param "id")
            mem.seeded).2 :=
  updateUser_lookup_failure mem.app (mem.context "user-9" (.ok mem.clark)) mem.seeded
    mem.clark .ErrNoRows rfl rfl

/-- C5: whenever the delete statement executes without error, whatever its
result (zero rows affected included), `DeleteByID` returns a nil error and
`deleteUser` answers 202 with an empty body; and the same request repeated in
the world the first one left answers 202 again when its statement executes. -/
theorem delete_idempotent (repo : Repository σ) (c : Context) (w : σ) (res : Result)
    (hexec : (repo.db.ExecContext (deleteStmt (c.Param "id")) w).1 = .ok res) :
    (repo.DeleteByID (c.Param "id") w).1 = none
      ∧ (Config.deleteUser ⟨NewRepository repo⟩ c w).response = .NoContent 202
      ∧ (∀ res2,
          (repo.db.ExecContext (deleteStmt (c.Param "id"))
              (Config.deleteUser ⟨NewRepository repo⟩ c w).world).1 = .ok res2 →
          (Config.deleteUser ⟨NewRepository repo⟩ c
              (Config.deleteUser ⟨NewRepository repo⟩ c w).world).response
            = .NoContent 202) := by
  have key : ∀ (v : σ) (r2 : Result),
      (repo.db.ExecContext (deleteStmt (c.Param "id")) v).1 = .ok r2 →
      (repo.DeleteByID (c.Param "id") v).1 = none := by
    intro v r2 h
    simp [Repository.DeleteByID, h]
  have run : ∀ (v : σ) (r2 : Result),
      (repo.db.ExecContext (deleteStmt (c.Param "id")) v).1 = .ok r2 →
      (Config.deleteUser ⟨NewRepository repo⟩ c v).response = .NoContent 202 := by
    intro v r2 h
    simp [Config.deleteUser, NewRepository, key v r2 h, StatusAccepted]
  exact ⟨key w res hexec, run w res hexec, fun res2 h => run _ res2 h⟩

/-- Witness of C5: deleting, twice, an identifier the empty store does not
hold; the statement affects zero rows. -/
theorem delete_idempotent_witness :
    (mem.repository.DeleteByID ((mem.context "user-9" (.ok mem.clark)).Param "id")
        mem.empty).1 = none
      ∧ (Config.deleteUser ⟨NewRepository mem.repository⟩
          (mem.context "user-9" (.ok mem.clark)) mem.empty).response = .NoContent 202
      ∧ (∀ res2,
          (mem.repository.db.ExecContext
              (deleteStmt ((mem.context "user-9" (.ok mem.clark)).Param "id"))
              (Config.deleteUser ⟨NewRepository mem.repository⟩
                (mem.context "user-9" (.ok mem.clark)) mem.empty).world).1 = .ok res2 →
          (Config.deleteUser ⟨NewRepository mem.repository⟩
              (mem.context "user-9" (.ok mem.clark))
              (Config.deleteUser ⟨NewRepository mem.repository⟩
                (mem.context "user-9" (.ok mem.clark)) mem.empty).world).response
            = .NoContent 202) :=
  delete_idempotent mem.repository (mem.context "user-9" (.ok mem.clark)) mem.empty ⟨0, 0⟩
    rfl

/-- A user scanned by `GetAll` has the zero password: the column is not among
the destinations. -/
theorem scanListed_password (row : Row) (user : User)
    (h : scanListed row = .ok user) : user.Password = "" := by
  unfold scanListed at h
  split at h
  · cases h
    rfl
  · cases h

/-- Every user of the slice `GetAll` builds has the zero password. -/
theorem scanAll_password (rows : List Row) :
    ∀ (acc : Option (List User)) (us : List User),
      (∀ u ∈ acc.getD [], u.Password = "") →
      (scanAll rows acc).1 = some us → ∀ u ∈ us, u.Password = "" := by
  induction rows with
  | nil =>
      intro acc us hacc h u hu
      simp only [scanAll] at h
      subst h
      exact hacc u (by simpa using hu)
  | cons row rest ih =>
      intro acc us hacc h u hu
      simp only [scanAll] at h
      cases hrow : scanListed row with
      | error e => simp [hrow] at h
      | ok user =>
          rw [hrow] at h
          refine ih (some (acc.getD [] ++ [user])) us ?_ h u hu
          intro v hv
          simp only [Option.getD_some, List.mem_append, List.mem_singleton] at hv
          rcases hv with hv | hv
          · exact hacc v hv
          · subst hv
            exact scanListed_password row v hrow

/-- The encoding of users with zero passwords has no `password` member. -/
theorem usersJSON_keys (us : Option (List User))
    (h : ∀ u ∈ us.getD [], u.Password = "") :
    (usersJSON us).keys.contains "password" = false := by
  cases us with
  | none => rfl
  | some l =>
      rw [Bool.eq_false_iff]
      intro hmem
      simp only [usersJSON, json.Document.keys, List.contains, List.elem_iff,
        List.mem_flatten, List.mem_map] at hmem
      obtain ⟨ks, ⟨o, ⟨u, hu, rfl⟩, rfl⟩, hk⟩ := hmem
      exact (toJSON_blank_password u (h u (by simpa using hu))).1 hk

/-- The encoding of one user with a zero password has no `password` member. -/
theorem userJSON_keys (u : User) (h : u.Password = "") :
    (json.Document.object u.toJSON).keys.contains "password" = false := by
  rw [Bool.eq_false_iff]
  intro hmem
  simp only [json.Document.keys, List.contains, List.elem_iff] at hmem
  exact (toJSON_blank_password u h).1 hmem

/-- C6: over the repository of data.go and any behaviour of the store, no
response of the five handlers has a `password` member in its body, whatever
password the store holds: list rows are scanned without the column, get and
create blank the field before encoding, update and delete write no user.  In
particular, whatever password the row read by get by id holds, the answer is
the encoding of that row with the password blank. -/
theorem password_never_exposed (repo : Repository σ) (c : Context) (w : σ) :
    (Config.getAllUsers ⟨NewRepository repo⟩ c w).response.exposesPassword = false
      ∧ (Config.getUser ⟨NewRepository repo⟩ c w).response.exposesPassword = false
      ∧ (Config.saveUser ⟨NewRepository repo⟩ c w).response.exposesPassword = false
      ∧ (Config.updateUser ⟨NewRepository repo⟩ c w).response.exposesPassword = false
      ∧ (Config.deleteUser ⟨NewRepository repo⟩ c w).response.exposesPassword = false
      ∧ (∀ row user,
          (repo.db.QueryRowContext (selectByID (c.Param "id")) w).1 = .ok row →
          scanStored row = .ok user →
          (Config.getUser ⟨NewRepository repo⟩ c w).response
            = .JSON 200 (.object
                (User.toJSON ⟨user.ID, user.Email, user.FirstName, user.LastName, "",
                  user.Active, user.CreatedAt, user.UpdatedAt⟩))) := by
  refine ⟨?_, ?_, ?_, ?_, ?_, ?_⟩
  · simp only [Config.getAllUsers, NewRepository, Repository.GetAll]
    cases hq : (repo.db.QueryContext selectAll w).1 with
    | error e => rfl
    | ok rows =>
        simp only []
        cases hs : scanAll rows.rows none with
        | mk us err =>
            cases err with
            | some e => rfl
            | none =>
                simp only [Response.exposesPassword, Response.document]
                apply usersJSON_keys
                cases us with
                | none => simp
                | some l =>
                    have := scanAll_password rows.rows none l (by simp) (by rw [hs])
                    simpa using this
  · simp only [Config.getUser, NewRepository, Repository.GetOne]
    cases hq : ((repo.db.QueryRowContext (selectByID (c.Param "id")) w).1.bind scanStored) with
    | error e => rfl
    | ok user =>
        simp only [Response.exposesPassword, Response.document]
        exact userJSON_keys _ rfl
  · unfold Config.saveUser
    split
    · rfl
    · simp only []
      split
      · rfl
      · split
        · rfl
        · split
          · rfl
          · simp only [Response.exposesPassword, Response.document]
            exact userJSON_keys _ rfl
  · unfold Config.updateUser
    split
    · rfl
    · simp only []
      split
      · rfl
      · split
        · rfl
        · split <;> rfl
  · unfold Config.deleteUser
    simp only []
    split <;> rfl
  · intro row user hrow hscan
    simp [Config.getUser, NewRepository, Repository.GetOne, hrow, Except.bind, hscan,
      StatusOK]

/-- Witness of C6: the stored row of `user-1` holds a password hash, and the
answer to get by id is the user without it. -/
theorem password_never_exposed_witness :
    (mem.seeded.users.map (fun v => v.Password)) = ["$2a$12$drowssap"]
      ∧ (mem.app.getUser (mem.context "user-1" (.ok mem.clark)) mem.seeded).response
        = .JSON 200 (.object
            [("user_id", .string "user-1"), ("email", .string "example@gmail.com"),
             ("first_name", .string "Clark"), ("last_name", .string "Kent"),
             ("active", .number 1), ("created_at", .time 1000),
             ("updated_at", .time 1001)])
      ∧ (mem.app.getAllUsers (mem.context "" (.ok mem.clark))
          mem.seeded).response.exposesPassword = false :=
  have h := password_never_exposed mem.repository (mem.context "user-1" (.ok mem.clark))
    mem.seeded
  ⟨rfl,
   h.2.2.2.2.2
     [.text "user-1", .text "example@gmail.com", .text "Clark", .text "Kent",
      .text "$2a$12$drowssap", .int 1, .time 1000, .time 1001]
     ⟨"user-1", "example@gmail.com", "Clark", "Kent", "$2a$12$drowssap", 1, 1000, 1001⟩
     rfl rfl,
   (password_never_exposed mem.repository (mem.context "" (.ok mem.clark)) mem.seeded).1⟩

/-- C7: when the body decodes to `r` and `GetOne` returns the stored user `s`
with a nil error, `updateUser` calls `Update` once, after the lookup, with the
user whose email, first name, last name and active flag are those of `r` and
whose identifier, password and timestamps are those of `s`; when that `Update`
returns a nil error the answer is 202 with an empty body. -/
theorem updateUser_overlay (app : Config σ) (c : Context) (w : σ) (r s : User)
    (hbind : c.Bind = .ok r)
    (hlookup : (app.Repo.GetOne (c.Param "id") w).1 = (some s, none)) :
    (app.updateUser c w).calls
        = [.GetOne (c.Param "id"),
           .Update ⟨s.ID, r.Email, r.FirstName, r.LastName, s.Password, r.Active,
             s.CreatedAt, s.UpdatedAt⟩]
      ∧ ((app.Repo.Update
            ⟨s.ID, r.Email, r.FirstName, r.LastName, s.Password, r.Active, s.CreatedAt,
              s.UpdatedAt⟩
            (app.Repo.GetOne (c.Param "id") w).2).1 = none →
          (app.updateUser c w).response = .NoContent 202) := by
  constructor
  · simp only [Config.updateUser, hbind, hlookup]
    split <;> rfl
  · intro hupdate
    simp [Config.updateUser, hbind, hlookup, hupdate, StatusAccepted]

/-- Witness of C7: an update of `user-1` whose body also carries a `user_id`
and a `password`; neither reaches `Update`. -/
theorem updateUser_overlay_witness :
    (mem.app.updateUser
        (mem.context "user-1" (.ok ⟨"user-7", "lois@mail.com", "Lois", "Lane", "secret", 0,
          5, 6⟩)) mem.seeded).calls
        = [.GetOne "user-1",
           .Update ⟨"user-1", "lois@mail.com", "Lois", "Lane", "$2a$12$drowssap", 0, 1000,
             1001⟩]
      ∧ (mem.app.updateUser
          (mem.context "user-1" (.ok ⟨"user-7", "lois@mail.com", "Lois", "Lane", "secret", 0,
            5, 6⟩)) mem.seeded).response = .NoContent 202 :=
  have h := updateUser_overlay mem.app
    (mem.context "user-1" (.ok ⟨"user-7", "lois@mail.com", "Lois", "Lane", "secret", 0, 5, 6⟩))
    mem.seeded ⟨"user-7", "lois@mail.com", "Lois", "Lane", "secret", 0, 5, 6⟩
    ⟨"user-1", "example@gmail.com", "Clark", "Kent", "$2a$12$drowssap", 1, 1000, 1001⟩
    rfl rfl
  ⟨h.1, h.2 rfl⟩

/-- The results of `GetOne` of data.go: a user with a nil error, or no user
with the error of the query or of the scan. -/
theorem GetOne_cases (repo : Repository σ) (id : String) (w : σ) :
    (∃ user, (repo.GetOne id w).1 = (some user, none))
      ∨ (∃ err, (repo.GetOne id w).1 = (none, some err)) := by
  unfold Repository.GetOne
  simp only []
  split
  · exact Or.inr ⟨_, rfl⟩
  · exact Or.inl ⟨_, rfl⟩

/-- C8: over the repository of data.go and any behaviour of the store and of
the decoder, every handler answers with its success code (200 list and get,
201 create, 202 update and delete) or with 400 and an error body of its route
(`bad request` for list, get and delete; `bad request`, `processing error`,
`user exists`, `submission failed` for create; `bad request`, `update failed`
for update); and get by id answers the same 400 `bad request` for every error
of the lookup, the no-rows error like any other. -/
theorem failures_collapse_to_400 (repo : Repository σ) (c : Context) (w : σ) :
    ((∃ doc, (Config.getAllUsers ⟨NewRepository repo⟩ c w).response = .JSON 200 doc)
        ∨ (Config.getAllUsers ⟨NewRepository repo⟩ c w).response
            = .JSON 400 (.object [("error", .string "bad request")]))
      ∧ ((∃ doc, (Config.getUser ⟨NewRepository repo⟩ c w).response = .JSON 200 doc)
        ∨ (Config.getUser ⟨NewRepository repo⟩ c w).response
            = .JSON 400 (.object [("error", .string "bad request")]))
      ∧ ((∃ doc, (Config.saveUser ⟨NewRepository repo⟩ c w).response = .JSON 201 doc)
        ∨ (∃ msg ∈ ["bad request", "processing error", "user exists", "submission failed"],
            (Config.saveUser ⟨NewRepository repo⟩ c w).response
              = .JSON 400 (.object [("error", .string msg)])))
      ∧ ((Config.updateUser ⟨NewRepository repo⟩ c w).response = .NoContent 202
        ∨ (∃ msg ∈ ["bad request", "update failed"],
            (Config.updateUser ⟨NewRepository repo⟩ c w).response
              = .JSON 400 (.object [("error", .string msg)])))
      ∧ ((Config.deleteUser ⟨NewRepository repo⟩ c w).response = .NoContent 202
        ∨ (Config.deleteUser ⟨NewRepository repo⟩ c w).response
            = .JSON 400 (.object [("error", .string "bad request")]))
      ∧ (∀ run ∈ [Config.getAllUsers ⟨NewRepository repo⟩ c w,
            Config.getUser ⟨NewRepository repo⟩ c w,
            Config.saveUser ⟨NewRepository repo⟩ c w,
            Config.updateUser ⟨NewRepository repo⟩ c w,
            Config.deleteUser ⟨NewRepository repo⟩ c w],
          run.response.status ∈ [some 200, some 201, some 202, some 400])
      ∧ (∀ err, (repo.db.QueryRowContext (selectByID (c.Param "id")) w).1 = .error err →
          (Config.getUser ⟨NewRepository repo⟩ c w).response
            = .JSON 400 (.object [("error", .string "bad request")])) := by
  have hall : (∃ doc, (Config.getAllUsers ⟨NewRepository repo⟩ c w).response = .JSON 200 doc)
      ∨ (Config.getAllUsers ⟨NewRepository repo⟩ c w).response
          = .JSON 400 (.object [("error", .string "bad request")]) := by
    unfold Config.getAllUsers
    simp only []
    split
    · exact Or.inr rfl
    · exact Or.inl ⟨_, rfl⟩
  have hget : (∃ doc, (Config.getUser ⟨NewRepository repo⟩ c w).response = .JSON 200 doc)
      ∨ (Config.getUser ⟨NewRepository repo⟩ c w).response
          = .JSON 400 (.object [("error", .string "bad request")]) := by
    rcases GetOne_cases repo (c.Param "id") w with ⟨user, h⟩ | ⟨err, h⟩
    · left
      refine ⟨.object (User.toJSON { user with Password := "" }), ?_⟩
      simp [Config.getUser, NewRepository, h, StatusOK]
    · right
      simp [Config.getUser, NewRepository, h, StatusBadRequest, errorResponse.toJSON]
  have hsave : (∃ doc, (Config.saveUser ⟨NewRepository repo⟩ c w).response = .JSON 201 doc)
      ∨ (∃ msg ∈ ["bad request", "processing error", "user exists", "submission failed"],
          (Config.saveUser ⟨NewRepository repo⟩ c w).response
            = .JSON 400 (.object [("error", .string msg)])) := by
    unfold Config.saveUser
    split
    · exact Or.inr ⟨"bad request", by simp, rfl⟩
    · simp only []
      split
      · exact Or.inr ⟨"processing error", by simp, rfl⟩
      · split
        · exact Or.inr ⟨"user exists", by simp, rfl⟩
        · split
          · exact Or.inr ⟨"submission failed", by simp, rfl⟩
          · exact Or.inl ⟨_, rfl⟩
  have hupdate : (Config.updateUser ⟨NewRepository repo⟩ c w).response = .NoContent 202
      ∨ (∃ msg ∈ ["bad request", "update failed"],
          (Config.updateUser ⟨NewRepository repo⟩ c w).response
            = .JSON 400 (.object [("error", .string msg)])) := by
    cases hb : c.Bind with
    | error e =>
        exact Or.inr ⟨"bad request", by simp,
          by simp [Config.updateUser, hb, StatusBadRequest, errorResponse.toJSON]⟩
    | ok r =>
        rcases GetOne_cases repo (c.Param "id") w with ⟨user, h⟩ | ⟨err, h⟩
        · simp only [Config.updateUser, hb, NewRepository, h]
          split
          · exact Or.inr ⟨"update failed", by simp, rfl⟩
          · exact Or.inl rfl
        · exact Or.inr ⟨"bad request", by simp,
            by simp [Config.updateUser, hb, NewRepository, h, StatusBadRequest,
              errorResponse.toJSON]⟩
  have hdelete : (Config.deleteUser ⟨NewRepository repo⟩ c w).response = .NoContent 202
      ∨ (Config.deleteUser ⟨NewRepository repo⟩ c w).response
          = .JSON 400 (.object [("error", .string "bad request")]) := by
    unfold Config.deleteUser
    simp only []
    split
    · exact Or.inr rfl
    · exact Or.inl rfl
  refine ⟨hall, hget, hsave, hupdate, hdelete, ?_, ?_⟩
  · intro run hrun
    simp only [List.mem_cons, List.mem_singleton, List.mem_nil_iff, or_false] at hrun
    rcases hrun with rfl | rfl | rfl | rfl | rfl
    · rcases hall with ⟨doc, h⟩ | h <;> simp [h, Response.status]
    · rcases hget with ⟨doc, h⟩ | h <;> simp [h, Response.status]
    · rcases hsave with ⟨doc, h⟩ | ⟨msg, _, h⟩ <;> simp [h, Response.status]
    · rcases hupdate with h | ⟨msg, _, h⟩ <;> simp [h, Response.status]
    · rcases hdelete with h | h <;> simp [h, Response.status]
  · intro err herr
    simp [Config.getUser, NewRepository, Repository.GetOne, herr, Except.bind,
      StatusBadRequest, errorResponse.toJSON]

/-- Witness of C8: get by id answers the same 400 when the row is missing
(`sql.ErrNoRows`) and when the connection is closed (`sql.ErrConnDone`). -/
theorem failures_collapse_to_400_witness :
    (mem.app.getUser (mem.context "user-9" (.ok mem.clark)) mem.seeded).response
        = .JSON 400 (.object [("error", .string "bad request")])
      ∧ (mem.closedApp.getUser (mem.context "user-1" (.ok mem.clark)) mem.seeded).response
        = .JSON 400 (.object [("error", .string "bad request")]) :=
  ⟨(failures_collapse_to_400 mem.repository (mem.context "user-9" (.ok mem.clark))
      mem.seeded).2.2.2.2.2.2 .ErrNoRows rfl,
   (failures_collapse_to_400 ⟨mem.closed, mem.lib⟩ (mem.context "user-1" (.ok mem.clark))
      mem.seeded).2.2.2.2.2.2 .ErrConnDone rfl⟩

/-- C9: for a body that decodes to `u`, the failures of `saveUser` come in a
fixed order.  A lookup error that neither is nor wraps `sql.ErrNoRows` gives
400 `processing error` and `Insert` is not called.  A lookup that returns no
user and a no-rows error goes on to `Insert u`; when that `Insert` returns an
error the answer is 400 `submission failed`. -/
theorem saveUser_failure_order (app : Config σ) (c : Context) (w : σ) (u : User)
    (hbind : c.Bind = .ok u) :
    (∀ e, (app.Repo.GetByEmail u.Email w).1.2 = some e →
        errors.Is (some e) .ErrNoRows = false →
        (app.saveUser c w).response
            = .JSON 400 (.object [("error", .string "processing error")])
          ∧ (∀ layout, ((app.saveUser c w).response.document.map (json.Marshal layout))
              = some "\x7b\"error\":\"processing error\"\x7d")
          ∧ (app.saveUser c w).calls = [.GetByEmail u.Email])
      ∧ ((app.Repo.GetByEmail u.Email w).1.1 = none →
          errors.Is (app.Repo.GetByEmail u.Email w).1.2 .ErrNoRows = true →
          (app.saveUser c w).calls = [.GetByEmail u.Email, .Insert u]
            ∧ (∀ e2, (app.Repo.Insert u (app.Repo.GetByEmail u.Email w).2).1.2 = some e2 →
                (app.saveUser c w).response
                    = .JSON 400 (.object [("error", .string "submission failed")])
                  ∧ (∀ layout,
                      ((app.saveUser c w).response.document.map (json.Marshal layout))
                        = some "\x7b\"error\":\"submission failed\"\x7d"))) := by
  refine ⟨?_, ?_⟩
  · intro e hlookup his
    have hrun : app.saveUser c w
        = ⟨.JSON 400 (.object [("error", .string "processing error")]),
            [.GetByEmail u.Email], (app.Repo.GetByEmail u.Email w).2⟩ := by
      simp [Config.saveUser, hbind, hlookup, his, StatusBadRequest, errorResponse.toJSON]
    rw [hrun]
    exact ⟨rfl, fun _ => rfl, rfl⟩
  · intro hnone hnorows
    constructor
    · simp only [Config.saveUser, hbind, hnone, hnorows, if_true]
      split <;> rfl
    · intro e2 hinsert
      have hrun : (app.saveUser c w).response
          = .JSON 400 (.object [("error", .string "submission failed")]) := by
        simp [Config.saveUser, hbind, hnone, hnorows, hinsert, StatusBadRequest,
          errorResponse.toJSON]
      rw [hrun]
      exact ⟨rfl, fun _ => rfl⟩

/-- Witness of C9: a create over a closed connection (the lookup fails with
`sql.ErrConnDone`), and a create of an unused email over a store that refuses
the write. -/
theorem saveUser_failure_order_witness :
    ((mem.closedApp.saveUser (mem.context "" (.ok mem.clark)) mem.empty).response
          = .JSON 400 (.object [("error", .string "processing error")])
        ∧ (mem.closedApp.saveUser (mem.context "" (.ok mem.clark)) mem.empty).calls
          = [.GetByEmail "example@gmail.com"])
      ∧ (mem.readOnlyApp.saveUser (mem.context "" (.ok mem.clark)) mem.empty).calls
          = [.GetByEmail "example@gmail.com", .Insert mem.clark]
      ∧ (mem.readOnlyApp.saveUser (mem.context "" (.ok mem.clark)) mem.empty).response
          = .JSON 400 (.object [("error", .string "submission failed")]) :=
  have h1 := (saveUser_failure_order mem.closedApp (mem.context "" (.ok mem.clark)) mem.empty
    mem.clark rfl).1 .ErrConnDone rfl rfl
  have h2 := (saveUser_failure_order mem.readOnlyApp (mem.context "" (.ok mem.clark))
    mem.empty mem.clark rfl).2 rfl rfl
  ⟨⟨h1.1, h1.2.2⟩, h2.1, (h2.2 .ErrConnDone rfl).1⟩

end controllers

namespace data

variable {σ : Type}

/-- C10, as the code has it: `Update` returns the error of the statement when
its execution fails, and a nil error whenever the statement executes, whatever
number of rows it affected, zero included. -/
theorem Update_error_is_exec_error (repo : Repository σ) (u : User) (w : σ) :
    (∀ err,
        (repo.db.ExecContext (updateStmt u (repo.lib.Now w).1) (repo.lib.Now w).2).1
            = .error err →
        (repo.Update u w).1 = some err)
      ∧ (∀ res,
        (repo.db.ExecContext (updateStmt u (repo.lib.Now w).1) (repo.lib.Now w).2).1
            = .ok res →
        (repo.Update u w).1 = none) := by
  constructor
  · intro err h
    simp [Repository.Update, h]
  · intro res h
    simp [Repository.Update, h]

/-- Witness of C10 as amended: an update over a closed connection returns
`sql.ErrConnDone`; an update of the stored user returns nil. -/
theorem Update_error_is_exec_error_witness :
    (Repository.Update ⟨mem.closed, mem.lib⟩ mem.clark mem.seeded).1 = some .ErrConnDone
      ∧ (mem.repository.Update
          ⟨"user-1", "lois@mail.com", "Lois", "Lane", "", 0, 0, 0⟩ mem.seeded).1 = none :=
  ⟨(Update_error_is_exec_error ⟨mem.closed, mem.lib⟩ mem.clark mem.seeded).1 .ErrConnDone rfl,
   (Update_error_is_exec_error mem.repository
      ⟨"user-1", "lois@mail.com", "Lois", "Lane", "", 0, 0, 0⟩ mem.seeded).2 ⟨0, 1⟩ rfl⟩

/-- Counterexample to C10 as stated: in the store that holds only `user-1`, no
row has the identifier `user-9`; the update statement for `user-9` executes
and affects zero rows, and `Update` returns a nil error. -/
theorem Update_unmatched_identifier_no_error :
    (mem.seeded.users.filter (fun v => v.ID = "user-9")) = []
      ∧ (mem.db.ExecContext
          (updateStmt ⟨"user-9", "lois@mail.com", "Lois", "Lane", "", 0, 0, 0⟩ 1002)
          ⟨mem.seeded.users, 1003, 2⟩).1 = .ok ⟨0, 0⟩
      ∧ (mem.repository.Update
          ⟨"user-9", "lois@mail.com", "Lois", "Lane", "", 0, 0, 0⟩ mem.seeded)
        = (none, ⟨mem.seeded.users, 1003, 2⟩) := by
  refine ⟨rfl, rfl, rfl⟩

end data


namespace data

variable {σ : Type}

/-- The loop of `GetAll` stops at the first row whose scan fails and returns
no slice with the error of that scan. -/
theorem scanAll_error (pre : List Row) :
    ∀ (acc : Option (List User)) (row : Row) (post : List Row) (e : GoError),
      (∀ r ∈ pre, ∃ u, scanListed r = .ok u) → scanListed row = .error e →
      scanAll (pre ++ row :: post) acc = (none, some e) := by
  induction pre with
  | nil =>
      intro acc row post e _ hrow
      simp [scanAll, hrow]
  | cons r rest ih =>
      intro acc row post e hpre hrow
      obtain ⟨u, hu⟩ := hpre r (by simp)
      simp only [List.cons_append, scanAll, hu]
      exact ih _ row post e (fun x hx => hpre x (by simp [hx])) hrow

/-- The loop of `GetAll` over rows that all scan: the users in row order,
appended to the slice so far; the nil slice stays nil when there is no row. -/
theorem scanAll_ok (rows : List Row) :
    ∀ (acc : Option (List User)) (users : List User),
      rows.map scanListed = users.map .ok →
      scanAll rows acc = (if users = [] then acc else some (acc.getD [] ++ users), none) := by
  induction rows with
  | nil =>
      intro acc users h
      cases users with
      | nil => simp [scanAll]
      | cons u us => simp at h
  | cons r rest ih =>
      intro acc users h
      cases users with
      | nil => simp at h
      | cons u us =>
          simp only [List.map_cons, List.cons.injEq] at h
          simp only [scanAll, h.1]
          rw [ih _ us h.2]
          by_cases hus : us = []
          · simp [hus]
          · simp [hus]

/-- C11: each read returns no data together with the error it met, unchanged.
`GetAll` returns the nil slice and the error of the query, or of the first
failing scan; `GetOne` and `GetByEmail` return a nil user and the error of the
row (the no-rows error included) or of its scan; and they return a user
exactly when the error is nil. -/
theorem reads_return_store_error (repo : Repository σ) (w : σ) (key : String) :
    (∀ e, (repo.db.QueryContext selectAll w).1 = .error e →
        (repo.GetAll w).1 = (none, some e))
      ∧ (∀ rows pre row post e, (repo.db.QueryContext selectAll w).1 = .ok rows →
          rows.rows = pre ++ row :: post → (∀ r ∈ pre, ∃ u, scanListed r = .ok u) →
          scanListed row = .error e → (repo.GetAll w).1 = (none, some e))
      ∧ (∀ e, (repo.db.QueryRowContext (selectByID key) w).1 = .error e →
          (repo.GetOne key w).1 = (none, some e))
      ∧ (∀ row e, (repo.db.QueryRowContext (selectByID key) w).1 = .ok row →
          scanStored row = .error e → (repo.GetOne key w).1 = (none, some e))
      ∧ (∀ e, (repo.db.QueryRowContext (selectByEmail key) w).1 = .error e →
          (repo.GetByEmail key w).1 = (none, some e))
      ∧ (∀ row e, (repo.db.QueryRowContext (selectByEmail key) w).1 = .ok row →
          scanStored row = .error e → (repo.GetByEmail key w).1 = (none, some e))
      ∧ ((repo.GetOne key w).1.1 ≠ none ↔ (repo.GetOne key w).1.2 = none)
      ∧ ((repo.GetByEmail key w).1.1 ≠ none ↔ (repo.GetByEmail key w).1.2 = none) := by
  refine ⟨?_, ?_, ?_, ?_, ?_, ?_, ?_, ?_⟩
  · intro e h
    simp [Repository.GetAll, h]
  · intro rows pre row post e h hrows hpre hrow
    simp only [Repository.GetAll, h, hrows]
    exact scanAll_error pre none row post e hpre hrow
  · intro e h
    simp [Repository.GetOne, h, Except.bind]
  · intro row e h hscan
    simp [Repository.GetOne, h, Except.bind, hscan]
  · intro e h
    simp [Repository.GetByEmail, h, Except.bind]
  · intro row e h hscan
    simp [Repository.GetByEmail, h, Except.bind, hscan]
  · unfold Repository.GetOne
    simp only []
    split <;> simp
  · unfold Repository.GetByEmail
    simp only []
    split <;> simp

/-- Witness of C11: a closed connection, a missing row, and a row that does
not fit the destinations. -/
theorem reads_return_store_error_witness :
    (Repository.GetAll ⟨mem.closed, mem.lib⟩ mem.seeded).1 = (none, some .ErrConnDone)
      ∧ (Repository.GetAll ⟨mem.garbled, mem.lib⟩ mem.seeded).1 = (none, some scanError)
      ∧ (mem.repository.GetOne "user-9" mem.seeded).1 = (none, some .ErrNoRows)
      ∧ (Repository.GetOne ⟨mem.garbled, mem.lib⟩ "user-1" mem.seeded).1
          = (none, some scanError)
      ∧ (mem.repository.GetByEmail "nobody@mail.com" mem.seeded).1 = (none, some .ErrNoRows)
      ∧ (Repository.GetByEmail ⟨mem.garbled, mem.lib⟩ "example@gmail.com" mem.seeded).1
          = (none, some scanError) :=
  ⟨(reads_return_store_error ⟨mem.closed, mem.lib⟩ mem.seeded "user-1").1 .ErrConnDone rfl,
   (reads_return_store_error ⟨mem.garbled, mem.lib⟩ mem.seeded "user-1").2.1
      ⟨[[.int 7]], none⟩ [] [.int 7] [] scanError rfl rfl (fun _ h => nomatch h) rfl,
   (reads_return_store_error mem.repository mem.seeded "user-9").2.2.1 .ErrNoRows rfl,
   (reads_return_store_error ⟨mem.garbled, mem.lib⟩ mem.seeded "user-1").2.2.2.1
      [.int 7] scanError rfl rfl,
   (reads_return_store_error mem.repository mem.seeded "nobody@mail.com").2.2.2.2.1
      .ErrNoRows rfl,
   (reads_return_store_error ⟨mem.garbled, mem.lib⟩ mem.seeded
      "example@gmail.com").2.2.2.2.2.1 [.int 7] scanError rfl rfl⟩

end data

namespace mem

open data

/-- Insertion keeps the rows. -/
theorem insertByLastName_perm (u : User) (l : List User) :
    (insertByLastName u l).Perm (u :: l) := by
  induction l with
  | nil => exact List.Perm.refl _
  | cons v rest ih =>
      unfold insertByLastName
      split
      · exact List.Perm.refl _
      · exact ((List.Perm.cons v ih).trans (List.Perm.swap u v rest))

/-- Ordering keeps the rows. -/
theorem orderByLastName_perm (l : List User) : (orderByLastName l).Perm l := by
  induction l with
  | nil => exact List.Perm.refl _
  | cons u rest ih =>
      exact (insertByLastName_perm u _).trans (List.Perm.cons u ih)

/-- Insertion into an ordered list gives an ordered list. -/
theorem insertByLastName_sorted (u : User) (l : List User)
    (h : l.Pairwise (fun a b => a.LastName ≤ b.LastName)) :
    (insertByLastName u l).Pairwise (fun a b => a.LastName ≤ b.LastName) := by
  induction l with
  | nil => simp [insertByLastName]
  | cons v rest ih =>
      rw [List.pairwise_cons] at h
      unfold insertByLastName
      split
      · rename_i hdata
        have hlt : u.LastName < v.LastName := String.lt_iff_toList_lt.mpr hdata
        rw [List.pairwise_cons]
        refine ⟨?_, List.pairwise_cons.mpr h⟩
        intro b hb
        rcases List.mem_cons.mp hb with rfl | hb
        · exact le_of_lt hlt
        · exact le_trans (le_of_lt hlt) (h.1 b hb)
      · rename_i hdata
        have hlt : ¬ u.LastName < v.LastName := fun h => hdata (String.lt_iff_toList_lt.mp h)
        rw [List.pairwise_cons]
        refine ⟨?_, ih h.2⟩
        intro b hb
        rcases List.mem_cons.mp ((insertByLastName_perm u rest).subset hb) with rfl | hb
        · exact not_lt.mp hlt
        · exact h.1 b hb

/-- The rows ordered by last name are in ascending order. -/
theorem orderByLastName_sorted (l : List User) :
    (orderByLastName l).Pairwise (fun a b => a.LastName ≤ b.LastName) := by
  induction l with
  | nil => simp [orderByLastName]
  | cons u rest ih => exact insertByLastName_sorted u _ ih

/-- The listing query on the memory store: every row, ordered by last name,
without the password column. -/
theorem query_selectAll (s : Store) :
    (db.QueryContext selectAll s).1
      = .ok ⟨(orderByLastName s.users).map (project
          "user_id, email, first_name, last_name, user_active, created_at, updated_at"),
          none⟩ := by
  have hall : satisfies [] = fun _ => true := by
    funext u
    simp [satisfies]
  simp [db, selectAll, selected, hall]

/-- The scan of a listed row of the memory store. -/
theorem scanListed_project (u : User) :
    scanListed (project
        "user_id, email, first_name, last_name, user_active, created_at, updated_at" u)
      = .ok ⟨u.ID, u.Email, u.FirstName, u.LastName, "", u.Active, u.CreatedAt,
          u.UpdatedAt⟩ := rfl

end mem

namespace data

variable {σ : Type}

/-- When every row scans, `GetAll` returns the scanned users in row order,
or the nil slice when there is no row. -/
theorem GetAll_of_scanned (r : Repository σ) (v : σ) (rows : Rows) (users : List User)
    (hq : (r.db.QueryContext selectAll v).1 = .ok rows)
    (hscan : rows.rows.map scanListed = users.map .ok) :
    (r.GetAll v).1 = (if users = [] then none else some users, none) := by
  simp only [Repository.GetAll, hq]
  rw [scanAll_ok rows.rows none users hscan]
  by_cases hu : users = [] <;> simp [hu]

/-- C12: `GetAll` hands the store one statement, the select of the seven
columns from `users` with `ORDER BY last_name ASC`, and returns one user per
row in the order and number of the rows.  So a store that answers in the order
of the clause gives a listing in ascending last name: on the memory store, for
every content, the listing holds every stored row once, ordered by last
name. -/
theorem GetAll_ordered_by_last_name (repo : Repository σ) (w : σ) :
    (repo.recording.GetAll (w, [])).2.2
        = [.select "user_id, email, first_name, last_name, user_active, created_at, updated_at"
            "users" [] ["last_name ASC"]]
      ∧ (∀ rows users, (repo.db.QueryContext selectAll w).1 = .ok rows →
          rows.rows.map scanListed = users.map .ok →
          (repo.GetAll w).1 = (if users = [] then none else some users, none))
      ∧ (∀ s : mem.Store, ∃ users,
          (mem.repository.GetAll s).1 = (if users = [] then none else some users, none)
            ∧ users.Pairwise (fun a b => a.LastName ≤ b.LastName)
            ∧ (users.map (fun u => (u.ID, u.LastName))).Perm
                (s.users.map (fun u => (u.ID, u.LastName)))) := by
  refine ⟨?_, GetAll_of_scanned repo w, ?_⟩
  · unfold Repository.GetAll
    simp only [Repository.recording, DB.recording]
    split <;> rfl
  · intro s
    refine ⟨(mem.orderByLastName s.users).map
      (fun u => ⟨u.ID, u.Email, u.FirstName, u.LastName, "", u.Active, u.CreatedAt,
        u.UpdatedAt⟩), ?_, ?_, ?_⟩
    · apply GetAll_of_scanned mem.repository s _ _ (mem.query_selectAll s)
      simp only [List.map_map]
      apply List.map_congr_left
      intro u _
      exact mem.scanListed_project u
    · rw [List.pairwise_map]
      exact mem.orderByLastName_sorted s.users
    · rw [List.map_map]
      exact (mem.orderByLastName_perm s.users).map _

/-- Witness of C12: in a store that holds `Kent` and then `Aaronson`, the
listing gives `Aaronson` first. -/
theorem GetAll_ordered_by_last_name_witness :
    (mem.repository.GetAll mem.listed).1
      = (some [⟨"user-2", "hank@mail.com", "Hank", "Aaronson", "", 1, 1002, 1003⟩,
               ⟨"user-1", "example@gmail.com", "Clark", "Kent", "", 1, 1000, 1001⟩], none) :=
  (GetAll_ordered_by_last_name mem.repository mem.listed).2.1
    ⟨[[.text "user-2", .text "hank@mail.com", .text "Hank", .text "Aaronson", .int 1,
        .time 1002, .time 1003],
      [.text "user-1", .text "example@gmail.com", .text "Clark", .text "Kent", .int 1,
        .time 1000, .time 1001]], none⟩
    [⟨"user-2", "hank@mail.com", "Hank", "Aaronson", "", 1, 1002, 1003⟩,
     ⟨"user-1", "example@gmail.com", "Clark", "Kent", "", 1, 1000, 1001⟩]
    rfl rfl

end data

namespace data

variable {σ : Type}

/-- C13: `Update` hands the store one statement: an update of `users` that
sets `email`, `first_name`, `last_name`, `updated_at` and `user_active` to the
email, first name, last name of `u`, the clock reading and the active flag of
`u`, where `user_id` equals `u.ID`.  The columns `password`, `user_id` and
`created_at` are not assigned. -/
theorem Update_statement (repo : Repository σ) (u : User) (w : σ) :
    (repo.recording.Update u (w, [])).2.2
        = [.update "users"
            [("email", .text u.Email), ("first_name", .text u.FirstName),
             ("last_name", .text u.LastName), ("updated_at", .time (repo.lib.Now w).1),
             ("user_active", .int u.Active)]
            [("user_id", .text u.ID)]]
      ∧ ((repo.recording.Update u (w, [])).2.2.map assigned
          = [["email", "first_name", "last_name", "updated_at", "user_active"]])
      ∧ ((repo.recording.Update u (w, [])).2.2.all (fun stmt =>
          !(assigned stmt).contains "password" && !(assigned stmt).contains "user_id"
            && !(assigned stmt).contains "created_at")) = true := by
  have hstmts : (repo.recording.Update u (w, [])).2.2
      = [.update "users"
          [("email", .text u.Email), ("first_name", .text u.FirstName),
           ("last_name", .text u.LastName), ("updated_at", .time (repo.lib.Now w).1),
           ("user_active", .int u.Active)]
          [("user_id", .text u.ID)]] := by
    unfold Repository.Update
    simp only [Repository.recording, DB.recording, Ambient.recording]
    split <;> rfl
  rw [hstmts]
  exact ⟨rfl, rfl, rfl⟩

/-- C14: `Insert` hashes `u.Password` with bcrypt at cost 12 before it writes.
When the hash is `h`, one statement reaches the store, the insert whose
password argument is `h` and whose `created_at` and `updated_at` are the two
clock readings taken after hashing; the plain password is not among its
arguments.  The identifier returned is the one of the returned row, and an
error of the insert comes back with the empty identifier.  When hashing fails
no statement reaches the store and the error comes back with the empty
identifier. -/
theorem Insert_hashes_password (repo : Repository σ) (u : User) (w : σ) :
    (∀ h w1 t1 w2 t2 w3,
        repo.lib.GenerateFromPassword u.Password 12 w = (.ok h, w1) →
        repo.lib.Now w1 = (t1, w2) → repo.lib.Now w2 = (t2, w3) →
        (repo.recording.Insert u (w, [])).2.2
            = [.insert "users"
                ["email", "first_name", "last_name", "password", "user_active",
                 "created_at", "updated_at"]
                [.text u.Email, .text u.FirstName, .text u.LastName, .bytes h,
                 .int u.Active, .time t1, .time t2]
                "RETURNING user_id"]
          ∧ (∀ id, (repo.db.QueryRowContext (insertStmt u h t1 t2) w3).1 = .ok [.text id] →
              (repo.Insert u w).1 = (id, none))
          ∧ (∀ e, (repo.db.QueryRowContext (insertStmt u h t1 t2) w3).1 = .error e →
              (repo.Insert u w).1 = ("", some e)))
      ∧ (∀ e, (repo.lib.GenerateFromPassword u.Password 12 w).1 = .error e →
          (repo.recording.Insert u (w, [])).2.2 = []
            ∧ (repo.Insert u w).1 = ("", some e)) := by
  constructor
  · intro h w1 t1 w2 t2 w3 hhash hnow1 hnow2
    refine ⟨?_, ?_, ?_⟩
    · unfold Repository.Insert
      simp only [Repository.recording, DB.recording, Ambient.recording, hhash, hnow1, hnow2]
      split <;> rfl
    · intro id hrow
      simp [Repository.Insert, hhash, hnow1, hnow2, hrow, scanID]
    · intro e herr
      simp [Repository.Insert, hhash, hnow1, hnow2, herr]
  · intro e hhash
    constructor
    · simp [Repository.Insert, Repository.recording, DB.recording, Ambient.recording, hhash]
    · simp [Repository.Insert, hhash]

/-- Witness of C14: an insert of `clark` in the empty store, the same insert
refused by a read-only store, and an insert whose password bcrypt refuses. -/
theorem Insert_hashes_password_witness :
    ((mem.repository.recording.Insert mem.clark (mem.empty, [])).2.2
          = [.insert "users"
              ["email", "first_name", "last_name", "password", "user_active",
               "created_at", "updated_at"]
              [.text "example@gmail.com", .text "Clark", .text "Kent",
               .bytes "$2a$12$drowssap", .int 1, .time 1000, .time 1001]
              "RETURNING user_id"]
        ∧ (mem.repository.Insert mem.clark mem.empty).1 = ("user-1", none))
      ∧ (Repository.Insert ⟨mem.readOnly, mem.lib⟩ mem.clark mem.empty).1
          = ("", some .ErrConnDone)
      ∧ ((mem.repository.recording.Insert { mem.clark with Password := mem.longPassword }
            (mem.empty, [])).2.2 = []
        ∧ (mem.repository.Insert { mem.clark with Password := mem.longPassword }
            mem.empty).1
          = ("", some (.other "bcrypt: password length exceeds 72 bytes"))) :=
  have h1 := (Insert_hashes_password mem.repository mem.clark mem.empty).1
    "$2a$12$drowssap" mem.empty 1000 ⟨[], 1001, 1⟩ 1001 ⟨[], 1002, 1⟩ rfl rfl rfl
  have h2 := (Insert_hashes_password ⟨mem.readOnly, mem.lib⟩ mem.clark mem.empty).1
    "$2a$12$drowssap" mem.empty 1000 ⟨[], 1001, 1⟩ 1001 ⟨[], 1002, 1⟩ rfl rfl rfl
  ⟨⟨h1.1, h1.2.1 "user-1" rfl⟩, h2.2.2 .ErrConnDone rfl,
   (Insert_hashes_password mem.repository { mem.clark with Password := mem.longPassword }
      mem.empty).2 (.other "bcrypt: password length exceeds 72 bytes") rfl⟩

end data

namespace controllers

open data

variable {σ : Type}

/-- C15, as the code has it: on a create whose body decodes, whose lookup
returns no user and a no-rows error, and whose `Insert` returns a nil error,
the answer is 201 and its `user_id` is the identifier `Insert` returned,
unchecked; it is non-empty exactly when that identifier is. -/
theorem saveUser_identifier_is_inserted (app : Config σ) (c : Context) (w : σ) (u : User)
    (hbind : c.Bind = .ok u)
    (hnone : (app.Repo.GetByEmail u.Email w).1.1 = none)
    (hnorows : errors.Is (app.Repo.GetByEmail u.Email w).1.2 .ErrNoRows = true)
    (hinsert : (app.Repo.Insert u (app.Repo.GetByEmail u.Email w).2).1.2 = none) :
    ∃ o, (app.saveUser c w).response = .JSON 201 (.object o)
      ∧ o.lookup "user_id"
          = some (.string (app.Repo.Insert u (app.Repo.GetByEmail u.Email w).2).1.1)
      ∧ (o.lookup "user_id" ≠ some (.string "")
          ↔ (app.Repo.Insert u (app.Repo.GetByEmail u.Email w).2).1.1 ≠ "") := by
  refine ⟨User.toJSON ⟨(app.Repo.Insert u (app.Repo.GetByEmail u.Email w).2).1.1, u.Email,
    u.FirstName, u.LastName, "", u.Active, u.CreatedAt, u.UpdatedAt⟩, ?_, ?_, ?_⟩
  · simp [Config.saveUser, hbind, hnone, hnorows, hinsert, StatusCreated]
  · exact (toJSON_blank_password _ rfl).2.1
  · rw [(toJSON_blank_password _ rfl).2.1]
    simp

/-- Witness of C15 as amended: creating `clark` in the empty store answers
with the identifier the store assigned. -/
theorem saveUser_identifier_is_inserted_witness :
    ∃ o, (mem.app.saveUser (mem.context "" (.ok mem.clark)) mem.empty).response
          = .JSON 201 (.object o)
      ∧ o.lookup "user_id"
          = some (.string (mem.app.Repo.Insert mem.clark
              (mem.app.Repo.GetByEmail mem.clark.Email mem.empty).2).1.1)
      ∧ (o.lookup "user_id" ≠ some (.string "")
          ↔ (mem.app.Repo.Insert mem.clark
              (mem.app.Repo.GetByEmail mem.clark.Email mem.empty).2).1.1 ≠ "") :=
  saveUser_identifier_is_inserted mem.app (mem.context "" (.ok mem.clark)) mem.empty
    mem.clark rfl rfl rfl rfl

/-- Counterexample to C15 as stated: over a table that generates no
identifier, the create of `clark` is valid (the body decodes, the lookup
reports no rows, `Insert` returns a nil error) and the 201 answer carries the
empty identifier. -/
theorem saveUser_empty_identifier :
    (mem.context "" (.ok mem.clark)).Bind = .ok mem.clark
      ∧ (mem.unkeyedApp.Repo.GetByEmail mem.clark.Email mem.empty).1
          = (none, some .ErrNoRows)
      ∧ (mem.unkeyedApp.Repo.Insert mem.clark mem.empty).1 = ("", none)
      ∧ (mem.unkeyedApp.saveUser (mem.context "" (.ok mem.clark)) mem.empty).response
          = .JSON 201 (.object
              [("user_id", .string ""), ("email", .string "example@gmail.com"),
               ("first_name", .string "Clark"), ("last_name", .string "Kent"),
               ("active", .number 1), ("created_at", .time 0), ("updated_at", .time 0)]) := by
  refine ⟨rfl, rfl, rfl, rfl⟩

/-- C16: whatever the request and the repository do, every handler keeps the
call discipline: at most one of `Insert`, `Update` and `DeleteByID`, at most
two calls, made one after the other with the read first.  List and get by id
make exactly one read and no write. -/
theorem handlers_call_discipline (app : Config σ) (c : Context) (w : σ) :
    (app.getAllUsers c w).calls = [.GetAll]
      ∧ (app.getUser c w).calls = [.GetOne (c.Param "id")]
      ∧ disciplined (app.getAllUsers c w).calls = true
      ∧ disciplined (app.getUser c w).calls = true
      ∧ disciplined (app.saveUser c w).calls = true
      ∧ disciplined (app.updateUser c w).calls = true
      ∧ disciplined (app.deleteUser c w).calls = true := by
  have hall : (app.getAllUsers c w).calls = [.GetAll] := by
    unfold Config.getAllUsers
    simp only []
    split <;> rfl
  have hget : (app.getUser c w).calls = [.GetOne (c.Param "id")] := by
    unfold Config.getUser
    simp only []
    split
    · rfl
    · split <;> rfl
  refine ⟨hall, hget, ?_, ?_, ?_, ?_, ?_⟩
  · rw [hall]
    rfl
  · rw [hget]
    rfl
  · unfold Config.saveUser
    split
    · rfl
    · simp only []
      split
      · rfl
      · split
        · rfl
        · split <;> rfl
  · unfold Config.updateUser
    split
    · rfl
    · simp only []
      split
      · rfl
      · split
        · rfl
        · split <;> rfl
  · unfold Config.deleteUser
    simp only []
    split <;> rfl

end controllers

namespace controllers

open data

variable {σ : Type}

/-- The two steps of a create request, taken in a row, are `saveUser`. -/
theorem saveUserStep_twice (app : Config σ) (c : Context) (w : σ) :
    app.saveUserStep (app.saveUserStep (.arrived c) w).1 (app.saveUserStep (.arrived c) w).2
      = (.answered (app.saveUser c w).response, (app.saveUser c w).world) := by
  cases hb : c.Bind with
  | error e =>
      have h1 : app.saveUserStep (.arrived c) w
          = (.answered (.JSON StatusBadRequest (errorResponse.toJSON ⟨"bad request"⟩)), w) := by
        simp [Config.saveUserStep, hb]
      rw [h1]
      simp [Config.saveUserStep, Config.saveUser, hb]
  | ok u =>
      cases herr : (if errors.Is (app.Repo.GetByEmail u.Email w).1.2 .ErrNoRows then none
          else (app.Repo.GetByEmail u.Email w).1.2) with
      | some e =>
          have h1 : app.saveUserStep (.arrived c) w
              = (.answered
                  (.JSON StatusBadRequest (errorResponse.toJSON ⟨"processing error"⟩)),
                  (app.Repo.GetByEmail u.Email w).2) := by
            simp only [Config.saveUserStep, hb, herr]
          rw [h1]
          simp only [Config.saveUserStep, Config.saveUser, hb, herr]
      | none =>
          cases heu : (app.Repo.GetByEmail u.Email w).1.1 with
          | some eu =>
              have h1 : app.saveUserStep (.arrived c) w
                  = (.answered
                      (.JSON StatusBadRequest (errorResponse.toJSON ⟨"user exists"⟩)),
                      (app.Repo.GetByEmail u.Email w).2) := by
                simp only [Config.saveUserStep, hb, herr, heu]
              rw [h1]
              simp only [Config.saveUserStep, Config.saveUser, hb, herr, heu]
          | none =>
              have h1 : app.saveUserStep (.arrived c) w
                  = (.checked u, (app.Repo.GetByEmail u.Email w).2) := by
                simp only [Config.saveUserStep, hb, herr, heu]
              rw [h1]
              simp only [Config.saveUserStep, Config.saveUser, hb, herr, heu]
              split <;> rfl

/-- C17: the check and the insert of a create are two separate repository
calls, and two creates of the same unused email can interleave between them.
On the memory store, stepping the first request, then the second, then each
again: after the first two steps both requests have passed the email check
(each lookup reported no rows) and nothing is written yet; after the last two
both are answered 201 and the table holds two rows with the same email.  Run
alone, the two steps of a request are `saveUser`. -/
theorem create_race_duplicates_email :
    (∀ (τ : Type) (app : Config τ) (c : Context) (w : τ),
        app.saveUserStep (app.saveUserStep (.arrived c) w).1
            (app.saveUserStep (.arrived c) w).2
          = (.answered (app.saveUser c w).response, (app.saveUser c w).world))
      ∧ (mem.app.Repo.GetByEmail mem.clark.Email mem.empty).1 = (none, some .ErrNoRows)
      ∧ (mem.app.interleave [true, false]
            (.arrived (mem.context "" (.ok mem.clark)),
             .arrived (mem.context "" (.ok { mem.clark with FirstName := "Kal" })))
            mem.empty).1.1.inserting = some mem.clark
      ∧ (mem.app.interleave [true, false]
            (.arrived (mem.context "" (.ok mem.clark)),
             .arrived (mem.context "" (.ok { mem.clark with FirstName := "Kal" })))
            mem.empty).1.2.inserting = some { mem.clark with FirstName := "Kal" }
      ∧ (mem.app.interleave [true, false]
            (.arrived (mem.context "" (.ok mem.clark)),
             .arrived (mem.context "" (.ok { mem.clark with FirstName := "Kal" })))
            mem.empty).2.users = []
      ∧ ((mem.app.interleave [true, false, true, false]
            (.arrived (mem.context "" (.ok mem.clark)),
             .arrived (mem.context "" (.ok { mem.clark with FirstName := "Kal" })))
            mem.empty).1.1.response.bind Response.status) = some 201
      ∧ ((mem.app.interleave [true, false, true, false]
            (.arrived (mem.context "" (.ok mem.clark)),
             .arrived (mem.context "" (.ok { mem.clark with FirstName := "Kal" })))
            mem.empty).1.2.response.bind Response.status) = some 201
      ∧ (mem.app.interleave [true, false, true, false]
            (.arrived (mem.context "" (.ok mem.clark)),
             .arrived (mem.context "" (.ok { mem.clark with FirstName := "Kal" })))
            mem.empty).2.users.map (fun u => (u.ID, u.Email))
          = [("user-1", "example@gmail.com"), ("user-2", "example@gmail.com")] := by
  refine ⟨fun _ app c w => saveUserStep_twice app c w, rfl, rfl, rfl, rfl, rfl, rfl, rfl⟩

/-- C18: `updateUser` overlays without looking at what the body held.  For
every decoded body `r` and stored user `s` the user handed to `Update` has the
email, first name, last name and active flag of `r`; so for the body `{}`,
which decodes to the zero user, `Update` gets the empty email, first name and
last name and the active flag 0 in place of the stored values. -/
theorem updateUser_overwrites_omitted (app : Config σ) (c : Context) (w : σ) (s : User)
    (hlookup : (app.Repo.GetOne (c.Param "id") w).1 = (some s, none)) :
    (∀ r, c.Bind = .ok r →
        (app.updateUser c w).calls.getLast?
          = some (.Update ⟨s.ID, r.Email, r.FirstName, r.LastName, s.Password, r.Active,
              s.CreatedAt, s.UpdatedAt⟩))
      ∧ (c.Bind = bindEmptyObject →
          (app.updateUser c w).calls
            = [.GetOne (c.Param "id"),
               .Update ⟨s.ID, "", "", "", s.Password, 0, s.CreatedAt, s.UpdatedAt⟩]) := by
  constructor
  · intro r hbind
    simp only [Config.updateUser, hbind, hlookup]
    split <;> rfl
  · intro hbind
    simp only [Config.updateUser, hbind, bindEmptyObject, hlookup, User.zero]
    split <;> rfl

/-- Witness of C18: the body `{}` sent to `user-1` of the store that holds
`clark`; the stored email, names and active flag are gone afterwards. -/
theorem updateUser_overwrites_omitted_witness :
    (mem.app.updateUser (mem.context "user-1" bindEmptyObject) mem.seeded).calls
        = [.GetOne "user-1",
           .Update ⟨"user-1", "", "", "", "$2a$12$drowssap", 0, 1000, 1001⟩]
      ∧ (mem.app.updateUser (mem.context "user-1" bindEmptyObject) mem.seeded).world.users
        = [⟨"user-1", "", "", "", "$2a$12$drowssap", 0, 1000, 1002⟩]
      ∧ (mem.app.updateUser (mem.context "user-1" (.ok mem.aaronson))
          mem.seeded).calls.getLast?
        = some (.Update ⟨"user-1", "hank@mail.com", "Hank", "Aaronson", "$2a$12$drowssap", 1,
            1000, 1001⟩) :=
  ⟨(updateUser_overwrites_omitted mem.app (mem.context "user-1" bindEmptyObject) mem.seeded
      ⟨"user-1", "example@gmail.com", "Clark", "Kent", "$2a$12$drowssap", 1, 1000, 1001⟩
      rfl).2 rfl,
   rfl,
   (updateUser_overwrites_omitted mem.app (mem.context "user-1" (.ok mem.aaronson))
      mem.seeded
      ⟨"user-1", "example@gmail.com", "Clark", "Kent", "$2a$12$drowssap", 1, 1000, 1001⟩
      rfl).1 mem.aaronson rfl⟩

/-- C19: when the listing query returns no row and no error, `GetAll` returns
the nil slice with a nil error, and `getAllUsers` answers 200 with the
encoding of the nil slice, the text `null`, which is not the empty array. -/
theorem getAllUsers_no_rows_null (repo : Repository σ) (c : Context) (w : σ)
    (err : Option GoError)
    (hquery : (repo.db.QueryContext selectAll w).1 = .ok ⟨[], err⟩) :
    (repo.GetAll w).1 = (none, none)
      ∧ (Config.getAllUsers ⟨NewRepository repo⟩ c w).response = .JSON 200 .null
      ∧ (∀ layout,
          ((Config.getAllUsers ⟨NewRepository repo⟩ c w).response.document.map
            (json.Marshal layout)) = some "null")
      ∧ (∀ layout,
          ((Config.getAllUsers ⟨NewRepository repo⟩ c w).response.document.map
            (json.Marshal layout)) ≠ some "[]") := by
  have hget : (repo.GetAll w).1 = (none, none) := by
    simp [Repository.GetAll, hquery, scanAll]
  have hrun : (Config.getAllUsers ⟨NewRepository repo⟩ c w).response = .JSON 200 .null := by
    simp [Config.getAllUsers, NewRepository, hget, StatusOK, usersJSON]
  rw [hrun]
  refine ⟨hget, rfl, fun _ => rfl, ?_⟩
  intro layout h
  simp [Response.document, json.Marshal] at h

/-- Witness of C19: the listing of the empty store. -/
theorem getAllUsers_no_rows_null_witness :
    (mem.repository.GetAll mem.empty).1 = (none, none)
      ∧ (mem.app.getAllUsers (mem.context "" (.ok mem.clark)) mem.empty).response
        = .JSON 200 .null
      ∧ (∀ layout,
          ((mem.app.getAllUsers (mem.context "" (.ok mem.clark)) mem.empty).response.document.map
            (json.Marshal layout)) = some "null")
      ∧ (∀ layout,
          ((mem.app.getAllUsers (mem.context "" (.ok mem.clark)) mem.empty).response.document.map
            (json.Marshal layout)) ≠ some "[]") :=
  getAllUsers_no_rows_null mem.repository (mem.context "" (.ok mem.clark)) mem.empty none rfl

end controllers
